import Mathlib

/-!
Sender transfer engine of `tran` (core/sender/transfer.go)

A shallow embedding of the three functions of `core/sender/transfer.go`:

* `ChunkSize`      – the chunk size chosen for a payload size,
* `streamPayload`  – the loop that reads, encrypts and writes the payload,
* `Transfer`       – the read loop that drives the sender state machine.

Integers: `payloadSize` is an `int64`; the only arithmetic on it is division by
the positive constants `MAX_CHUNK_BYTES` and `MAX_SEND_CHUNKS`, which cannot
overflow, so `Int` with truncating division (`Int.tdiv`, Go's `/`) is exact.
The two constants live in the package `constants`, which is not part of the
sources at hand, and are therefore parameters.

Effects: everything the functions do to the outside world (frames written,
the transport being closed, the shutdown signal, progress reports) and every
assignment to `s.state` is appended to a log, in program order.  Everything
the outside world decides (what the peer sends, what the payload reader
returns, whether a write or an encryption fails) is an input.
-/

namespace Tran

/-! ## Chunk size -/

/-- The function `ChunkSize` of transfer.go (lines 151-164).  `M` is
`constants.MAX_CHUNK_BYTES`, `K` is `constants.MAX_SEND_CHUNKS`. -/
def ChunkSize (M K : Int) (payloadSize : Int) : Int :=
  -- clamp amount of chunks to be at most MAX_SEND_CHUNKS if it exceeds
  if payloadSize.tdiv M > K then
    payloadSize.tdiv K
  else
    -- if not exceeding MAX_SEND_CHUNKS, divide up no. of chunks to MAX_CHUNK_BYTES-sized chunks
    let chunkSize := payloadSize.tdiv M
    -- clamp amount of chunks to be at least MAX_CHUNK_BYTES
    if chunkSize ≤ M then M else chunkSize

/-- The chunk size as the specification words it (section 4.D, "Adaptive chunk
sizing"): if `payloadSize / M > K` the chunk size is `payloadSize / K`;
otherwise, with `c = payloadSize / M`, it is `M` when `c ≤ M` and `c` when
`c > M`.  The division is the truncating integer division. -/
def specChunkSize (M K : Int) (payloadSize : Int) : Int :=
  if payloadSize.tdiv M > K then payloadSize.tdiv K
  else
    let c := payloadSize.tdiv M
    if c ≤ M then M else c

/-- The number of chunks the specification counts for a payload:
`ceil(payloadSize / chunkSize)`, the quotient taken in the rationals. -/
def chunkCount (M K : Int) (payloadSize : Int) : Int :=
  Int.ceil ((payloadSize : ℚ) / (ChunkSize M K payloadSize : ℚ))

/-! ## Protocol data -/

/-- Modelled from the spec: the message types of package `protocol`, which is
not among the sources at hand; section 3 lists the closed enumeration, in
declaration order. -/
inductive MessageType
  | ReceiverHandshake
  | SenderHandshake
  | ReceiverRequestPayload
  | SenderPayloadSent
  | ReceiverPayloadAck
  | SenderClosing
  | ReceiverClosingAck
  | TransferError
  deriving DecidableEq

/-- The struct `protocol.TransferMessage`: a typed control message (`Typ` is
the Go field `Type`). -/
structure TransferMessage where
  Typ : MessageType
  Payload : String
  deriving DecidableEq

/-- Modelled from the spec: the states of the sender, declared in a file of
package `sender` that is not among the sources at hand; section 4.D lists them
in this order. -/
inductive TransferState
  | Initial
  | WaitForHandshake
  | WaitForFileRequest
  | WaitForFileAck
  | WaitForCloseMessage
  | WaitForCloseAck
  | Terminated
  deriving DecidableEq

/-- Modelled from the spec: the method `Name` of a state, declared with the
states; "each state is named" and scenario S3 prints the names as the
identifiers of the states. -/
def TransferState.Name : TransferState → String
  | .Initial => "Initial"
  | .WaitForHandshake => "WaitForHandshake"
  | .WaitForFileRequest => "WaitForFileRequest"
  | .WaitForFileAck => "WaitForFileAck"
  | .WaitForCloseMessage => "WaitForCloseMessage"
  | .WaitForCloseAck => "WaitForCloseAck"
  | .Terminated => "Terminated"

/-- The position of a state in the order
`Initial < WaitForHandshake < WaitForFileRequest < WaitForFileAck <
WaitForCloseMessage < WaitForCloseAck < Terminated`. -/
def TransferState.rank : TransferState → Nat
  | .Initial => 0
  | .WaitForHandshake => 1
  | .WaitForFileRequest => 2
  | .WaitForFileAck => 3
  | .WaitForCloseMessage => 4
  | .WaitForCloseAck => 5
  | .Terminated => 6

/-- The `error` values that `Transfer` and `streamPayload` return. -/
inductive Error
  /-- the error `fmt.Errorf("shutting down tran due to websocket error: %s", err)` -/
  | websocket (cause : String)
  /-- the error of `tools.WriteEncryptedMessage`, returned as it is -/
  | write (cause : String)
  /-- the error `NewWrongStateError(expected, actual)` -/
  | wrongState (expected actual : TransferState)
  /-- the error `fmt.Errorf("TransferError during file transfer")` -/
  | transferError
  /-- the error of `s.crypt.Encrypt`, returned as it is -/
  | encrypt (cause : String)
  deriving DecidableEq

/-- The error a read of the payload reports: `io.EOF` or anything else. -/
inductive ReadError
  | EOF
  | other (cause : String)
  deriving DecidableEq

/-- What one call `bufReader.Read(buffer)` returns: the `n = data.length` bytes
it placed in the buffer, and `err`. -/
structure ReadResult where
  data : List UInt8
  err : Option ReadError
  deriving DecidableEq

/-- One effect of the sender, or one assignment to `s.state`. -/
inductive Event
  /-- the assignment `s.state = st` -/
  | assign (st : TransferState)
  /-- a call `tools.WriteEncryptedMessage(wsConn, msg, s.crypt)` that returned `nil` -/
  | control (msg : TransferMessage)
  /-- the call `wsConn.WriteMessage(websocket.BinaryMessage, enc)`, `enc` the
  encryption of `plain`; `err` is its result, which the code discards -/
  | binary (plain enc : List UInt8) (err : Option String)
  /-- the call `s.updateUI(progress)` with `progress = bytesSent / payloadSize` -/
  | progress (bytesSent payloadSize : Int)
  /-- the call `s.updateUI()` -/
  | updateUI
  /-- the call `wsConn.Close()` -/
  | close
  /-- the send `s.closeServer <- syscall.SIGTERM` -/
  | sigterm
  deriving DecidableEq

/-- How a call ends. -/
inductive Exit
  /-- the function returned `err` (`none` is `nil`) -/
  | returned (err : Option Error)
  /-- the function is inside `tools.ReadEncryptedMessage`, the peer having sent
  nothing more -/
  | awaitingMessage
  /-- the function is inside `bufReader.Read`, the payload reader having
  nothing more to return -/
  | awaitingPayload
  /-- the function did not return: a run-time panic (`make` with a length that
  is negative or too large, `buffer[:n]` out of range) or memory exhausted -/
  | panicked
  deriving DecidableEq

/-- The part of the world the sender does not control.  The three oracles are
asked with the number of effects logged so far, so that every call may end
differently. -/
structure Env where
  /-- the constant `constants.MAX_CHUNK_BYTES` -/
  MAX_CHUNK_BYTES : Int
  /-- the constant `constants.MAX_SEND_CHUNKS` -/
  MAX_SEND_CHUNKS : Int
  /-- the largest length `n` for which `make([]byte, n)` succeeds in this world;
  for a longer one the run-time panics (`makeslice: len out of range`, above
  its `maxAlloc`, which is `1 << 48` on 64-bit platforms) or the machine runs
  out of memory -/
  allocLimit : Int
  /-- the result of `s.crypt.Encrypt(plain)` -/
  Encrypt : Nat → List UInt8 → Except String (List UInt8)
  /-- the error of `tools.WriteEncryptedMessage`, `none` for `nil` -/
  writeErr : Nat → Option String
  /-- the error of `wsConn.WriteMessage`, `none` for `nil` -/
  binaryErr : Nat → Option String

/-- The fields of `Sender` that transfer.go uses, and the log of its effects.
`payload` is the reader `s.payload`, given by what its coming reads return. -/
structure Sender where
  state : TransferState
  payloadSize : Int
  payload : List ReadResult
  log : List Event
  deriving DecidableEq

/-- The payload of the `TransferError` message of a state mismatch:
`fmt.Sprintf("Tran unsynchronized, expected state: %s, actual: %s", ...)`. -/
def unsynchronized (expected actual : TransferState) : String :=
  "Tran unsynchronized, expected state: " ++ expected.Name ++ ", actual: " ++ actual.Name

/-! ## Payload streaming -/

/-- The loop of `streamPayload` (lines 129-145), one iteration for each read of
the payload.  `chunkSize` is the length of `buffer`. -/
def streamLoop (env : Env) (payloadSize chunkSize : Int) :
    List ReadResult → Int → List Event → (List ReadResult × List Event) × Exit
  | [], _, log => (([], log), Exit.awaitingPayload)
  | r :: rest, bytesSent, log =>
    -- n, err := bufReader.Read(buffer)
    let n : Int := r.data.length
    let bytesSent := bytesSent + n
    -- buffer[:n]
    if n > chunkSize then ((rest, log), Exit.panicked)
    else
      match env.Encrypt log.length r.data with
      | Except.error encErr => ((rest, log), Exit.returned (some (Error.encrypt encErr)))
      | Except.ok enc =>
        let log := log ++ [Event.binary r.data enc (env.binaryErr log.length),
                           Event.progress bytesSent payloadSize]
        if r.err = some ReadError.EOF then ((rest, log), Exit.returned none)
        else streamLoop env payloadSize chunkSize rest bytesSent log

/-- The function `streamPayload` (lines 122-148). -/
def streamPayload (env : Env) (s : Sender) : Sender × Exit :=
  let chunkSize := ChunkSize env.MAX_CHUNK_BYTES env.MAX_SEND_CHUNKS s.payloadSize
  -- buffer := make([]byte, chunkSize)
  if chunkSize < 0 ∨ chunkSize > env.allocLimit then (s, Exit.panicked)
  else
    let r := streamLoop env s.payloadSize chunkSize s.payload 0 s.log
    ({ s with payload := r.1.1, log := r.1.2 }, r.2)

/-! ## The transfer sequence -/

/-- The call `tools.WriteEncryptedMessage(wsConn, msg, s.crypt)`.  The function
belongs to package `tools`, outside transfer.go; whether it fails is decided
by the world (`env.writeErr`), and the message is logged when it succeeds. -/
def WriteEncryptedMessage (env : Env) (s : Sender) (msg : TransferMessage) :
    Sender × Option String :=
  match env.writeErr s.log.length with
  | some err => (s, some err)
  | none => ({ s with log := s.log ++ [Event.control msg] }, none)

/-- The body of the loop of `Transfer` after a message was read (the `switch`,
lines 31-117).  `none` in the second component: the loop goes on to the next
read. -/
def dispatch (env : Env) (s : Sender) (receivedMsg : TransferMessage) : Sender × Option Exit :=
  match receivedMsg.Typ with
  | MessageType.ReceiverRequestPayload =>
    if s.state ≠ TransferState.WaitForFileRequest then
      match WriteEncryptedMessage env s
          ⟨MessageType.TransferError,
            unsynchronized TransferState.WaitForFileRequest s.state⟩ with
      | (s, some err) => (s, some (Exit.returned (some (Error.write err))))
      | (s1, none) =>
        ({ s1 with log := s1.log ++ [Event.close, Event.sigterm] },
          some (Exit.returned (some (Error.wrongState TransferState.WaitForFileRequest s.state))))
    else
      match streamPayload env s with
      | (s, Exit.returned (some err)) => (s, some (Exit.returned (some err)))
      | (s, Exit.awaitingMessage) => (s, some Exit.awaitingMessage)
      | (s, Exit.awaitingPayload) => (s, some Exit.awaitingPayload)
      | (s, Exit.panicked) => (s, some Exit.panicked)
      | (s, Exit.returned none) =>
        match WriteEncryptedMessage env s
            ⟨MessageType.SenderPayloadSent, "Tran transfer completed"⟩ with
        | (s, some err) => (s, some (Exit.returned (some (Error.write err))))
        | (s, none) =>
          ({ s with state := TransferState.WaitForFileAck,
                    log := s.log ++ [Event.assign TransferState.WaitForFileAck, Event.updateUI] },
            none)
  | MessageType.ReceiverPayloadAck =>
    if s.state ≠ TransferState.WaitForFileAck then
      match WriteEncryptedMessage env s
          ⟨MessageType.TransferError,
            unsynchronized TransferState.WaitForFileAck s.state⟩ with
      | (s, some err) => (s, some (Exit.returned (some (Error.write err))))
      | (s1, none) =>
        ({ s1 with log := s1.log ++ [Event.close, Event.sigterm] },
          some (Exit.returned (some (Error.wrongState TransferState.WaitForFileAck s.state))))
    else
      let s := { s with state := TransferState.WaitForCloseMessage,
                        log := s.log ++ [Event.assign TransferState.WaitForCloseMessage,
                                         Event.updateUI] }
      match WriteEncryptedMessage env s
          ⟨MessageType.SenderClosing, "Closing down Tran as requested"⟩ with
      | (s, some err) => (s, some (Exit.returned (some (Error.write err))))
      | (s, none) =>
        ({ s with state := TransferState.WaitForCloseAck,
                  log := s.log ++ [Event.assign TransferState.WaitForCloseAck, Event.updateUI] },
          none)
  | MessageType.ReceiverClosingAck =>
    let s := { s with log := s.log ++ [Event.close, Event.sigterm] }
    if s.state ≠ TransferState.WaitForCloseAck then
      (s, some (Exit.returned (some (Error.wrongState TransferState.WaitForCloseAck s.state))))
    else
      (s, some (Exit.returned none))
  | MessageType.TransferError =>
    ({ s with log := s.log ++ [Event.updateUI, Event.close, Event.sigterm] },
      some (Exit.returned (some Error.transferError)))
  | MessageType.ReceiverHandshake => (s, none)
  | MessageType.SenderHandshake => (s, none)
  | MessageType.SenderPayloadSent => (s, none)
  | MessageType.SenderClosing => (s, none)

/-- The loop of `Transfer` (lines 20-118); `reads` is what the successive calls
of `tools.ReadEncryptedMessage` return. -/
def transferLoop (env : Env) : Sender → List (Except String TransferMessage) → Sender × Exit
  | s, [] => (s, Exit.awaitingMessage)
  | s, Except.error err :: _ =>
    ({ s with log := s.log ++ [Event.close, Event.sigterm] },
      Exit.returned (some (Error.websocket err)))
  | s, Except.ok receivedMsg :: rest =>
    match dispatch env s receivedMsg with
    | (s, none) => transferLoop env s rest
    | (s, some exit) => (s, exit)

/-- The function `Transfer` (lines 17-119). -/
def Transfer (env : Env) (s : Sender) (reads : List (Except String TransferMessage)) :
    Sender × Exit :=
  transferLoop env
    { s with state := TransferState.WaitForFileRequest,
             log := s.log ++ [Event.assign TransferState.WaitForFileRequest] }
    reads

/-! ## Reading the log -/

/-- The states assigned to `s.state`, in order. -/
def assignments : List Event → List TransferState
  | [] => []
  | Event.assign st :: log => st :: assignments log
  | _ :: log => assignments log

/-- The plaintext chunks of the binary frames written, in order. -/
def chunks : List Event → List (List UInt8)
  | [] => []
  | Event.binary plain _ _ :: log => plain :: chunks log
  | _ :: log => chunks log

/-- The control messages written, in order. -/
def controls : List Event → List TransferMessage
  | [] => []
  | Event.control msg :: log => msg :: controls log
  | _ :: log => controls log

/-- An event of payload streaming: a binary frame or a progress report. -/
def Event.isStreaming : Event → Bool
  | Event.binary _ _ _ => true
  | Event.progress _ _ => true
  | _ => false

/-- An event that puts a frame on the transport. -/
def Event.isWrite : Event → Bool
  | Event.binary _ _ _ => true
  | Event.control _ => true
  | _ => false

/-- What one pass through the `switch` does to `s.state`: the states it assigns
form an increasing run above the state it started in, and none of them is
above the state it leaves. -/
def Ascends (s s1 : Sender) (new : List Event) : Prop :=
  s1.log = s.log ++ new ∧
    (assignments new).Pairwise (fun a b => a.rank < b.rank) ∧
    (∀ a ∈ assignments new, s.state.rank < a.rank ∧ a.rank ≤ s1.state.rank) ∧
    s.state.rank ≤ s1.state.rank

/-- The bytes a run of reads delivers, in order. -/
def delivered (reads : List ReadResult) : List UInt8 :=
  (reads.map ReadResult.data).flatten

/-! ## Scenarios -/

/-- A world in which nothing fails: the constants of the examples of the
specification (`1 << 14` and `1024`), a 64-bit machine that allocates
whatever the run-time accepts (up to `1 << 48` bytes), writes that succeed,
and a stand-in cipher that returns the plaintext. -/
def scenarioEnv : Env where
  MAX_CHUNK_BYTES := 16384
  MAX_SEND_CHUNKS := 1024
  allocLimit := 281474976710656
  Encrypt := fun _ plain => Except.ok plain
  writeErr := fun _ => none
  binaryErr := fun _ => none

/-- The bytes of `"hello"`. -/
def hello : List UInt8 := [104, 101, 108, 108, 111]

/-- The sender of scenario S1 in a given state: the payload is `"hello"`, read
from a file, so that the first read returns the five bytes and the second one
`0, io.EOF`. -/
def helloSender (state : TransferState) : Sender :=
  ⟨state, 5, [⟨hello, none⟩, ⟨[], some ReadError.EOF⟩], []⟩

/-- The sender of scenario S1, except that the payload size it was given is
`1 << 62`: with the constants of the examples the chunk size is `1 << 52`,
more than the run-time of a 64-bit platform allocates. -/
def hugeSender (state : TransferState) : Sender :=
  ⟨state, 4611686018427387904, [⟨hello, none⟩, ⟨[], some ReadError.EOF⟩], []⟩

/-- The world of `scenarioEnv`, except that every write of a control message
fails. -/
def brokenWriteEnv : Env :=
  { scenarioEnv with writeErr := fun _ => some "broken pipe" }

/-- The world of `scenarioEnv`, except that every encryption fails. -/
def brokenCipherEnv : Env :=
  { scenarioEnv with Encrypt := fun _ _ => Except.error "cipher failure" }

/-- The sender of scenario S1, except that the first read of the payload fails
with an error that is not `io.EOF` and delivers nothing; the reads after it
are those of `helloSender`. -/
def failedReadSender (state : TransferState) : Sender :=
  ⟨state, 5,
    [⟨[], some (ReadError.other "input/output error")⟩, ⟨hello, none⟩,
     ⟨[], some ReadError.EOF⟩], []⟩

/-- The world of `scenarioEnv`, except that every write of a binary frame
fails. -/
def brokenBinaryEnv : Env :=
  { scenarioEnv with binaryErr := fun _ => some "broken pipe" }

/-! ## Reading progress reports -/

/-- The two-case function that `ChunkSize` comes down to when
`MAX_SEND_CHUNKS ≤ MAX_CHUNK_BYTES`: `payloadSize / K` if
`payloadSize / M > K`, else `M`. -/
def twoCaseChunkSize (M K : Int) (payloadSize : Int) : Int :=
  if payloadSize.tdiv M > K then payloadSize.tdiv K else M

/-! ## Runs that return `nil` -/

/-- The message types that have a case in the `switch` of `Transfer`. -/
def MessageType.isDispatched : MessageType → Bool
  | MessageType.ReceiverRequestPayload => true
  | MessageType.ReceiverPayloadAck => true
  | MessageType.ReceiverClosingAck => true
  | MessageType.TransferError => true
  | _ => false

/-- The types of the messages read that have a case in the `switch`, in the
order in which they were read. -/
def dispatchedTypes : List (Except String TransferMessage) → List MessageType
  | [] => []
  | Except.ok msg :: reads =>
    if msg.Typ.isDispatched then msg.Typ :: dispatchedTypes reads else dispatchedTypes reads
  | Except.error _ :: reads => dispatchedTypes reads

/-- The messages with a case in the `switch` that a run of the loop must still
read, in this order, to return `nil`, as a function of the state. -/
def awaited : TransferState → List MessageType
  | TransferState.WaitForFileRequest =>
    [MessageType.ReceiverRequestPayload, MessageType.ReceiverPayloadAck,
     MessageType.ReceiverClosingAck]
  | TransferState.WaitForFileAck =>
    [MessageType.ReceiverPayloadAck, MessageType.ReceiverClosingAck]
  | _ => [MessageType.ReceiverClosingAck]

/-- What the sender writes and assigns from the moment it has read
`ReceiverPayloadAck` in `WaitForFileAck` to a return of `nil`. -/
def closingEvents : List Event :=
  [Event.assign TransferState.WaitForCloseMessage, Event.updateUI,
   Event.control ⟨MessageType.SenderClosing, "Closing down Tran as requested"⟩,
   Event.assign TransferState.WaitForCloseAck, Event.updateUI,
   Event.close, Event.sigterm]

/-- The sender at the end of a run of the loop that returns `nil`, as a function
of the sender at its start. -/
def completed (env : Env) (s : Sender) : Sender :=
  match s.state with
  | TransferState.WaitForFileRequest =>
    { (streamPayload env s).1 with
        state := TransferState.WaitForCloseAck
        log := (streamPayload env s).1.log ++
          [Event.control ⟨MessageType.SenderPayloadSent, "Tran transfer completed"⟩,
           Event.assign TransferState.WaitForFileAck, Event.updateUI] ++ closingEvents }
  | TransferState.WaitForFileAck =>
    { s with state := TransferState.WaitForCloseAck, log := s.log ++ closingEvents }
  | _ => { s with log := s.log ++ [Event.close, Event.sigterm] }

/-! # Theorems -/

/-! ## Arithmetic of `ChunkSize` -/

/-- In every branch the chunk size is at least `MAX_CHUNK_BYTES`. -/
lemma ChunkSize_ge_max_chunk_bytes (M K p : Int) (hM : 0 < M) (hK : 0 < K) :
    M ≤ ChunkSize M K p := by
  unfold ChunkSize
  simp only []
  split_ifs with h1 h2
  · -- p / M > K with M, K > 0 forces p ≥ 0
    have hp : 0 ≤ p := by
      by_contra hneg
      have hle : p.tdiv M ≤ 0 := by
        have h0 : 0 ≤ (-p).tdiv M := Int.tdiv_nonneg (by omega) hM.le
        rw [Int.neg_tdiv] at h0
        omega
      omega
    rw [Int.tdiv_eq_ediv hp hM.le] at h1
    rw [Int.tdiv_eq_ediv hp hK.le]
    have h3 : K + 1 ≤ p / M := h1
    have h4 : M * (p / M) ≤ p := Int.mul_ediv_self_le hM.ne.symm
    have h5 : M * K ≤ p := by nlinarith
    exact (Int.le_ediv_iff_mul_le hK).mpr h5
  · exact le_refl M
  · simp only [not_le] at h2
    exact h2.le

/-- A payload is covered by `payloadSize / M + 1` chunks of the chosen size. -/
lemma payload_le_chunks_mul (M K p : Int) (hM : 0 < M) (hK : 0 < K) (hp : 0 ≤ p) :
    p ≤ (p.tdiv M + 1) * ChunkSize M K p := by
  have hge := ChunkSize_ge_max_chunk_bytes M K p hM hK
  rw [Int.tdiv_eq_ediv hp hM.le]
  have h1 : p < (p / M + 1) * M := by
    have := Int.lt_ediv_add_one_mul_self p hM
    linarith
  have h2 : 0 ≤ p / M := Int.ediv_nonneg hp hM.le
  nlinarith

/-! ## What the log records -/

lemma chunks_append (a b : List Event) : chunks (a ++ b) = chunks a ++ chunks b := by
  induction a with
  | nil => rfl
  | cons e a ih => cases e <;> simp [chunks, ih]

lemma assignments_append (a b : List Event) :
    assignments (a ++ b) = assignments a ++ assignments b := by
  induction a with
  | nil => rfl
  | cons e a ih => cases e <;> simp [assignments, ih]

lemma assignments_of_streaming (frames : List Event)
    (h : ∀ e ∈ frames, e.isStreaming = true) : assignments frames = [] := by
  induction frames with
  | nil => rfl
  | cons e frames ih =>
    have he := h e (List.mem_cons_self _ _)
    have ht := ih (fun x hx => h x (List.mem_cons_of_mem _ hx))
    cases e <;> simp_all [assignments, Event.isStreaming]

/-! ## The streaming loop -/

/-- Whatever the payload reader and the cipher do, the loop only appends
binary frames and progress reports to the log, and no chunk it writes is
longer than the buffer. -/
lemma streamLoop_log (env : Env) (payloadSize chunkSize : Int) (payload : List ReadResult) :
    ∀ (bytesSent : Int) (log : List Event),
      ∃ frames, (streamLoop env payloadSize chunkSize payload bytesSent log).1.2 = log ++ frames ∧
        (∀ e ∈ frames, e.isStreaming = true) ∧
        ∀ c ∈ chunks frames, (c.length : Int) ≤ chunkSize := by
  induction payload with
  | nil =>
    intro bytesSent log
    exact ⟨[], by simp [streamLoop], by simp, by simp [chunks]⟩
  | cons r rest ih =>
    intro bytesSent log
    unfold streamLoop
    by_cases hn : (r.data.length : Int) > chunkSize
    · exact ⟨[], by simp [hn], by simp, by simp [chunks]⟩
    · simp only [hn, if_false]
      cases henc : env.Encrypt log.length r.data with
      | error e => exact ⟨[], by simp, by simp, by simp [chunks]⟩
      | ok enc =>
        simp only []
        by_cases heof : r.err = some ReadError.EOF
        · simp only [heof, if_true]
          refine ⟨_, rfl, ?_, ?_⟩
          · intro e he
            simp at he
            rcases he with rfl | rfl <;> rfl
          · intro c hc
            simp [chunks] at hc
            subst hc
            omega
        · simp only [heof, if_false]
          obtain ⟨frames, h1, h2, h3⟩ := ih (bytesSent + (r.data.length : Int))
            (log ++ [Event.binary r.data enc (env.binaryErr log.length),
                     Event.progress (bytesSent + (r.data.length : Int)) payloadSize])
          refine ⟨Event.binary r.data enc (env.binaryErr log.length) ::
            Event.progress (bytesSent + (r.data.length : Int)) payloadSize :: frames, ?_, ?_, ?_⟩
          · rw [h1]; simp
          · intro e he
            simp at he
            rcases he with rfl | rfl | he
            · rfl
            · rfl
            · exact h2 e he
          · intro c hc
            simp [chunks] at hc
            rcases hc with rfl | hc
            · omega
            · exact h3 c hc

lemma streamPayload_state (env : Env) (s : Sender) :
    (streamPayload env s).1.state = s.state ∧
      (streamPayload env s).1.payloadSize = s.payloadSize := by
  unfold streamPayload
  simp only []
  split_ifs <;> exact ⟨rfl, rfl⟩

lemma streamPayload_log (env : Env) (s : Sender) :
    ∃ frames, (streamPayload env s).1.log = s.log ++ frames ∧
      (∀ e ∈ frames, e.isStreaming = true) ∧
      ∀ c ∈ chunks frames,
        (c.length : Int) ≤ ChunkSize env.MAX_CHUNK_BYTES env.MAX_SEND_CHUNKS s.payloadSize := by
  unfold streamPayload
  simp only []
  split_ifs with h
  · exact ⟨[], by simp, by simp, by simp [chunks]⟩
  · exact streamLoop_log env s.payloadSize _ s.payload 0 s.log

lemma streamLoop_delivers (env : Env) (payloadSize chunkSize : Int)
    (henc : ∀ t plain, ∃ enc, env.Encrypt t plain = Except.ok enc)
    (last : ReadResult) (post : List ReadResult) (hlast : last.err = some ReadError.EOF)
    (pre : List ReadResult) :
    (∀ r ∈ pre, r.err ≠ some ReadError.EOF) →
    (∀ r ∈ pre ++ [last], (r.data.length : Int) ≤ chunkSize) →
    ∀ (bytesSent : Int) (log : List Event),
      ∃ frames,
        streamLoop env payloadSize chunkSize (pre ++ last :: post) bytesSent log =
          ((post, log ++ frames), Exit.returned none) ∧
        chunks frames = (pre ++ [last]).map ReadResult.data := by
  induction pre with
  | nil =>
    intro _ hfit bytesSent log
    have hn : ¬ (last.data.length : Int) > chunkSize := by
      have := hfit last (by simp)
      omega
    obtain ⟨enc, he⟩ := henc log.length last.data
    refine ⟨[Event.binary last.data enc (env.binaryErr log.length),
      Event.progress (bytesSent + (last.data.length : Int)) payloadSize], ?_, ?_⟩
    · simp only [List.nil_append, streamLoop, hn, if_false, he, hlast, if_true]
    · simp [chunks]
  | cons r pre ih =>
    intro hpre hfit bytesSent log
    have hn : ¬ (r.data.length : Int) > chunkSize := by
      have := hfit r (by simp)
      omega
    have heof : ¬ r.err = some ReadError.EOF := hpre r (by simp)
    obtain ⟨enc, he⟩ := henc log.length r.data
    obtain ⟨frames, h1, h2⟩ := ih (fun x hx => hpre x (List.mem_cons_of_mem _ hx))
      (fun x hx => hfit x (by
        rw [List.cons_append]
        exact List.mem_cons_of_mem _ hx))
      (bytesSent + (r.data.length : Int))
      (log ++ [Event.binary r.data enc (env.binaryErr log.length),
               Event.progress (bytesSent + (r.data.length : Int)) payloadSize])
    refine ⟨Event.binary r.data enc (env.binaryErr log.length) ::
      Event.progress (bytesSent + (r.data.length : Int)) payloadSize :: frames, ?_, ?_⟩
    · rw [List.cons_append]
      simp only [streamLoop, hn, if_false, he, heof]
      rw [h1]
      simp
    · simp [chunks, h2]

/-- What `streamPayload` does for reads within a buffer that can be allocated,
ending with `io.EOF`, and a cipher that never fails: it returns `nil` after
the read `last`, having written one binary frame for each read, with the
bytes of that read. -/
lemma streamPayload_of_reads (env : Env) (s : Sender)
    (pre : List ReadResult) (last : ReadResult) (post : List ReadResult)
    (hpayload : s.payload = pre ++ last :: post)
    (hpre : ∀ r ∈ pre, r.err ≠ some ReadError.EOF)
    (hlast : last.err = some ReadError.EOF)
    (hfit : ∀ r ∈ pre ++ [last],
      (r.data.length : Int) ≤ ChunkSize env.MAX_CHUNK_BYTES env.MAX_SEND_CHUNKS s.payloadSize)
    (hbuf : ChunkSize env.MAX_CHUNK_BYTES env.MAX_SEND_CHUNKS s.payloadSize ≤ env.allocLimit)
    (henc : ∀ t plain, ∃ enc, env.Encrypt t plain = Except.ok enc) :
    ∃ frames,
      streamPayload env s =
        ({ s with payload := post, log := s.log ++ frames }, Exit.returned none) ∧
      (∀ e ∈ frames, e.isStreaming = true) ∧
      chunks frames = (pre ++ [last]).map ReadResult.data := by
  have hcs : ¬ (ChunkSize env.MAX_CHUNK_BYTES env.MAX_SEND_CHUNKS s.payloadSize < 0 ∨
      ChunkSize env.MAX_CHUNK_BYTES env.MAX_SEND_CHUNKS s.payloadSize > env.allocLimit) := by
    have := hfit last (by simp)
    omega
  obtain ⟨frames, h1, h2⟩ := streamLoop_delivers env s.payloadSize
    (ChunkSize env.MAX_CHUNK_BYTES env.MAX_SEND_CHUNKS s.payloadSize) henc last post hlast pre
    hpre hfit 0 s.log
  obtain ⟨frames2, g1, g2, -⟩ := streamPayload_log env s
  have hsp : streamPayload env s =
      ({ s with payload := post, log := s.log ++ frames }, Exit.returned none) := by
    simp only [streamPayload, hcs, if_false, hpayload, h1]
  have hfr : frames2 = frames := by
    rw [hsp] at g1
    exact (List.append_cancel_left g1).symm
  subst hfr
  exact ⟨frames2, hsp, g2, h2⟩

/-! ## The states assigned in a run -/

lemma dispatch_ascends (env : Env) (s : Sender) (msg : TransferMessage) :
    ∃ new, Ascends s (dispatch env s msg).1 new := by
  obtain ⟨typ, p⟩ := msg
  cases typ
  case ReceiverHandshake => exact ⟨[], by simp [Ascends, dispatch, assignments]⟩
  case SenderHandshake => exact ⟨[], by simp [Ascends, dispatch, assignments]⟩
  case SenderPayloadSent => exact ⟨[], by simp [Ascends, dispatch, assignments]⟩
  case SenderClosing => exact ⟨[], by simp [Ascends, dispatch, assignments]⟩
  case TransferError =>
    exact ⟨[Event.updateUI, Event.close, Event.sigterm],
      by simp [Ascends, dispatch, assignments]⟩
  case ReceiverClosingAck =>
    refine ⟨[Event.close, Event.sigterm], ?_⟩
    by_cases hst : s.state = TransferState.WaitForCloseAck <;>
      simp [Ascends, dispatch, assignments, hst]
  case ReceiverPayloadAck =>
    by_cases hst : s.state = TransferState.WaitForFileAck
    · cases hw : env.writeErr (s.log.length + 2) with
      | some err =>
        refine ⟨[Event.assign TransferState.WaitForCloseMessage, Event.updateUI], ?_⟩
        simp [Ascends, dispatch, assignments, hst, WriteEncryptedMessage, hw,
          TransferState.rank]
      | none =>
        refine ⟨[Event.assign TransferState.WaitForCloseMessage, Event.updateUI,
          Event.control ⟨MessageType.SenderClosing, "Closing down Tran as requested"⟩,
          Event.assign TransferState.WaitForCloseAck, Event.updateUI], ?_⟩
        simp [Ascends, dispatch, assignments, hst, WriteEncryptedMessage, hw,
          TransferState.rank]
    · cases hw : env.writeErr s.log.length with
      | some err =>
        exact ⟨[], by simp [Ascends, dispatch, assignments, hst, WriteEncryptedMessage, hw]⟩
      | none =>
        refine ⟨[Event.control ⟨MessageType.TransferError,
          unsynchronized TransferState.WaitForFileAck s.state⟩, Event.close, Event.sigterm], ?_⟩
        simp [Ascends, dispatch, assignments, hst, WriteEncryptedMessage, hw]
  case ReceiverRequestPayload =>
    by_cases hst : s.state = TransferState.WaitForFileRequest
    · obtain ⟨frames, hlog, hstream, -⟩ := streamPayload_log env s
      obtain ⟨hstate, -⟩ := streamPayload_state env s
      have hnone := assignments_of_streaming frames hstream
      rcases hsp : streamPayload env s with ⟨s1, exit⟩
      rw [hsp] at hlog hstate
      simp only at hlog hstate
      have hquiet : Ascends s s1 frames := by
        simp [Ascends, hlog, hnone, hstate]
      cases exit with
      | awaitingMessage => exact ⟨frames, by simpa [dispatch, hst, hsp] using hquiet⟩
      | awaitingPayload => exact ⟨frames, by simpa [dispatch, hst, hsp] using hquiet⟩
      | panicked => exact ⟨frames, by simpa [dispatch, hst, hsp] using hquiet⟩
      | returned err =>
        cases err with
        | some e => exact ⟨frames, by simpa [dispatch, hst, hsp] using hquiet⟩
        | none =>
          cases hw : env.writeErr s1.log.length with
          | some err =>
            exact ⟨frames,
              by simpa [dispatch, hst, hsp, WriteEncryptedMessage, hw] using hquiet⟩
          | none =>
            refine ⟨frames ++ [Event.control
              ⟨MessageType.SenderPayloadSent, "Tran transfer completed"⟩,
              Event.assign TransferState.WaitForFileAck, Event.updateUI], ?_⟩
            have hd : dispatch env s ⟨MessageType.ReceiverRequestPayload, p⟩ =
                ({ s1 with
                    state := TransferState.WaitForFileAck
                    log := s1.log ++ [Event.control
                        ⟨MessageType.SenderPayloadSent, "Tran transfer completed"⟩] ++
                      [Event.assign TransferState.WaitForFileAck, Event.updateUI] }, none) := by
              simp only [dispatch, hst, ne_eq, not_true_eq_false, if_false, hsp,
                WriteEncryptedMessage, hw]
            rw [hd]
            simp [Ascends, hlog, assignments_append, hnone, assignments, hst,
              TransferState.rank]
    · cases hw : env.writeErr s.log.length with
      | some err =>
        exact ⟨[], by simp [Ascends, dispatch, assignments, hst, WriteEncryptedMessage, hw]⟩
      | none =>
        refine ⟨[Event.control ⟨MessageType.TransferError,
          unsynchronized TransferState.WaitForFileRequest s.state⟩,
          Event.close, Event.sigterm], ?_⟩
        simp [Ascends, dispatch, assignments, hst, WriteEncryptedMessage, hw]

lemma transferLoop_ascends (env : Env) (reads : List (Except String TransferMessage)) :
    ∀ s : Sender, ∃ new, Ascends s (transferLoop env s reads).1 new := by
  induction reads with
  | nil =>
    intro s
    exact ⟨[], by simp [Ascends, transferLoop, assignments]⟩
  | cons r rest ih =>
    intro s
    cases r with
    | error err =>
      exact ⟨[Event.close, Event.sigterm], by simp [Ascends, transferLoop, assignments]⟩
    | ok msg =>
      obtain ⟨new1, h1⟩ := dispatch_ascends env s msg
      rcases hd : dispatch env s msg with ⟨s1, exit⟩
      rw [hd] at h1
      simp only at h1
      cases exit with
      | some x => exact ⟨new1, by simpa [transferLoop, hd] using h1⟩
      | none =>
        obtain ⟨new2, h2⟩ := ih s1
        refine ⟨new1 ++ new2, ?_⟩
        simp only [transferLoop, hd]
        obtain ⟨hl1, hp1, hb1, hs1⟩ := h1
        obtain ⟨hl2, hp2, hb2, hs2⟩ := h2
        refine ⟨by rw [hl2, hl1, List.append_assoc], ?_, ?_, le_trans hs1 hs2⟩
        · rw [assignments_append, List.pairwise_append]
          refine ⟨hp1, hp2, ?_⟩
          intro a ha b hb
          exact lt_of_le_of_lt (hb1 a ha).2 (hb2 b hb).1
        · intro a ha
          rw [assignments_append, List.mem_append] at ha
          rcases ha with ha | ha
          · exact ⟨(hb1 a ha).1, le_trans (hb1 a ha).2 hs2⟩
          · exact ⟨lt_of_le_of_lt hs1 (hb2 a ha).1, (hb2 a ha).2⟩

/-! ## Claims on `ChunkSize` -/

/-- C1: for all constants `M = MAX_CHUNK_BYTES` and `K = MAX_SEND_CHUNKS` (the
positive ones in particular) and every `payloadSize`, `ChunkSize` computes the
function the specification defines: `payloadSize / K` if
`payloadSize / M > K`; otherwise, with `c = payloadSize / M`, `M` if `c ≤ M`
and `c` if `c > M`. -/
theorem ChunkSize_eq_specChunkSize (M K payloadSize : Int) :
    ChunkSize M K payloadSize = specChunkSize M K payloadSize := by
  unfold ChunkSize specChunkSize
  by_cases h1 : payloadSize.tdiv M > K
  · simp only [h1, if_true]
  · by_cases h2 : payloadSize.tdiv M ≤ M
    · simp only [h1, h2, if_true, if_false]
    · simp only [h1, h2, if_false]

/-- C2: for positive constants and every `payloadSize ≥ 0`, the chunk size is
at least 1 and the number of chunks `ceil(payloadSize / ChunkSize)` is at most
`max(MAX_SEND_CHUNKS, payloadSize / MAX_CHUNK_BYTES + 1)`. -/
theorem ChunkSize_pos_and_chunkCount_le (M K payloadSize : Int)
    (hM : 0 < M) (hK : 0 < K) (hp : 0 ≤ payloadSize) :
    1 ≤ ChunkSize M K payloadSize ∧
      chunkCount M K payloadSize ≤ max K (payloadSize.tdiv M + 1) := by
  have hge := ChunkSize_ge_max_chunk_bytes M K payloadSize hM hK
  have hcs : 0 < ChunkSize M K payloadSize := lt_of_lt_of_le hM hge
  refine ⟨hcs, ?_⟩
  have hcover := payload_le_chunks_mul M K payloadSize hM hK hp
  have hcsq : (0 : ℚ) < (ChunkSize M K payloadSize : ℚ) := by exact_mod_cast hcs
  have hle : chunkCount M K payloadSize ≤ payloadSize.tdiv M + 1 := by
    unfold chunkCount
    rw [Int.ceil_le, div_le_iff₀ hcsq]
    exact_mod_cast hcover
  exact le_trans hle (le_max_right _ _)

/-- C2 at the specification's example constants and a 5-byte payload. -/
theorem ChunkSize_pos_and_chunkCount_le_witness :
    (0 : Int) < 16384 ∧ (0 : Int) < 1024 ∧ (0 : Int) ≤ 5 ∧
      1 ≤ ChunkSize 16384 1024 5 ∧
      chunkCount 16384 1024 5 ≤ max 1024 ((5 : Int).tdiv 16384 + 1) :=
  ⟨by decide, by decide, by decide,
    ChunkSize_pos_and_chunkCount_le 16384 1024 5 (by decide) (by decide) (by decide)⟩

/-! ## Claims on the transition table -/

/-- C3, amended: the first two rows of the transition table, when every write of
a control message succeeds.  First row: in `WaitForFileRequest`, on
`ReceiverRequestPayload`, when moreover the reads of the payload stay within
the buffer and end with end-of-stream, the buffer can be allocated and the
cipher never fails, the sender streams the payload (one binary frame for each
read up to the one that reports end-of-stream, with the bytes of that read,
and nothing but binary frames and progress reports), then writes exactly one
`SenderPayloadSent`, and is in `WaitForFileAck`.  Second row: in
`WaitForFileAck`, on `ReceiverPayloadAck`, the sender writes exactly one
`SenderClosing` and is in `WaitForCloseAck`.  In both cases nothing is closed
and `Transfer` does not return: the loop goes on with the next read. -/
theorem transfer_request_and_ack_rows (env : Env) (s : Sender) (p : String)
    (rest : List (Except String TransferMessage))
    (hw : ∀ t, env.writeErr t = none) :
    (s.state = TransferState.WaitForFileRequest →
      ∀ (pre : List ReadResult) (last : ReadResult) (post : List ReadResult),
        s.payload = pre ++ last :: post →
        (∀ r ∈ pre, r.err ≠ some ReadError.EOF) →
        last.err = some ReadError.EOF →
        (∀ r ∈ pre ++ [last], (r.data.length : Int) ≤
          ChunkSize env.MAX_CHUNK_BYTES env.MAX_SEND_CHUNKS s.payloadSize) →
        ChunkSize env.MAX_CHUNK_BYTES env.MAX_SEND_CHUNKS s.payloadSize ≤ env.allocLimit →
        (∀ t plain, ∃ enc, env.Encrypt t plain = Except.ok enc) →
        ∃ frames,
          (∀ e ∈ frames, e.isStreaming = true) ∧
          chunks frames = (pre ++ [last]).map ReadResult.data ∧
          streamPayload env s =
            ({ s with payload := post, log := s.log ++ frames }, Exit.returned none) ∧
          dispatch env s ⟨MessageType.ReceiverRequestPayload, p⟩ =
            ({ s with
                state := TransferState.WaitForFileAck
                payload := post
                log := s.log ++ frames ++
                  [Event.control ⟨MessageType.SenderPayloadSent, "Tran transfer completed"⟩,
                   Event.assign TransferState.WaitForFileAck, Event.updateUI] }, none) ∧
          transferLoop env s (Except.ok ⟨MessageType.ReceiverRequestPayload, p⟩ :: rest) =
            transferLoop env
              { s with
                  state := TransferState.WaitForFileAck
                  payload := post
                  log := s.log ++ frames ++
                    [Event.control ⟨MessageType.SenderPayloadSent, "Tran transfer completed"⟩,
                     Event.assign TransferState.WaitForFileAck, Event.updateUI] } rest) ∧
    (s.state = TransferState.WaitForFileAck →
      ∃ s1,
        s1.state = TransferState.WaitForCloseAck ∧
        s1.log = s.log ++
          [Event.assign TransferState.WaitForCloseMessage, Event.updateUI,
           Event.control ⟨MessageType.SenderClosing, "Closing down Tran as requested"⟩,
           Event.assign TransferState.WaitForCloseAck, Event.updateUI] ∧
        dispatch env s ⟨MessageType.ReceiverPayloadAck, p⟩ = (s1, none) ∧
        transferLoop env s (Except.ok ⟨MessageType.ReceiverPayloadAck, p⟩ :: rest) =
          transferLoop env s1 rest) := by
  constructor
  · intro hst pre last post hpayload hpre hlast hfit hbuf henc
    obtain ⟨frames, hsp, hstream, hchunks⟩ :=
      streamPayload_of_reads env s pre last post hpayload hpre hlast hfit hbuf henc
    have hd : dispatch env s ⟨MessageType.ReceiverRequestPayload, p⟩ =
        ({ s with
            state := TransferState.WaitForFileAck
            payload := post
            log := s.log ++ frames ++
              [Event.control ⟨MessageType.SenderPayloadSent, "Tran transfer completed"⟩,
               Event.assign TransferState.WaitForFileAck, Event.updateUI] }, none) := by
      simp only [dispatch, hst, ne_eq, not_true_eq_false, if_false, hsp,
        WriteEncryptedMessage, hw, List.append_assoc, List.singleton_append]
    exact ⟨frames, hstream, hchunks, hsp, hd, by simp only [transferLoop, hd]⟩
  · intro hst
    have hd : dispatch env s ⟨MessageType.ReceiverPayloadAck, p⟩ =
        ({ s with
            state := TransferState.WaitForCloseAck
            log := s.log ++ [Event.assign TransferState.WaitForCloseMessage, Event.updateUI] ++
              [Event.control ⟨MessageType.SenderClosing, "Closing down Tran as requested"⟩] ++
              [Event.assign TransferState.WaitForCloseAck, Event.updateUI] }, none) := by
      simp only [dispatch, hst, ne_eq, not_true_eq_false, if_false, WriteEncryptedMessage, hw]
    refine ⟨_, ?_, ?_, hd, ?_⟩
    · rfl
    · simp
    · simp only [transferLoop, hd]

/-- C3, amended, in scenario S1: for the sender of `"hello"` the first row
writes the frame of the five bytes, the empty frame of the read that reports
end-of-stream, and `SenderPayloadSent`; the second row fires too. -/
theorem transfer_request_and_ack_rows_witness :
    (∀ t, scenarioEnv.writeErr t = none) ∧
    dispatch scenarioEnv (helloSender TransferState.WaitForFileRequest)
        ⟨MessageType.ReceiverRequestPayload, ""⟩ =
      (⟨TransferState.WaitForFileAck, 5, [],
        [Event.binary hello hello none, Event.progress 5 5,
         Event.binary [] [] none, Event.progress 5 5,
         Event.control ⟨MessageType.SenderPayloadSent, "Tran transfer completed"⟩,
         Event.assign TransferState.WaitForFileAck, Event.updateUI]⟩, none) ∧
    (∃ s1, s1.state = TransferState.WaitForCloseAck ∧
      dispatch scenarioEnv (helloSender TransferState.WaitForFileAck)
        ⟨MessageType.ReceiverPayloadAck, ""⟩ = (s1, none)) := by
  refine ⟨fun _ => rfl, ?_, ?_⟩
  · obtain ⟨frames, -, hchunks, hsp, hd, -⟩ :=
      (transfer_request_and_ack_rows scenarioEnv
        (helloSender TransferState.WaitForFileRequest) "" [] (fun _ => rfl)).1 rfl
        [⟨hello, none⟩] ⟨[], some ReadError.EOF⟩ [] rfl (by decide) rfl (by decide)
        (by decide) (fun _ plain => ⟨plain, rfl⟩)
    have hlog : (streamPayload scenarioEnv
        (helloSender TransferState.WaitForFileRequest)).1.log =
        [Event.binary hello hello none, Event.progress 5 5,
         Event.binary [] [] none, Event.progress 5 5] := by decide
    rw [hsp] at hlog
    have hframes : frames =
        [Event.binary hello hello none, Event.progress 5 5,
         Event.binary [] [] none, Event.progress 5 5] := hlog
    rw [hd, hframes]
    rfl
  · obtain ⟨s1, h1, _, h2, _⟩ :=
      (transfer_request_and_ack_rows scenarioEnv
        (helloSender TransferState.WaitForFileAck) "" [] (fun _ => rfl)).2 (by decide)
    exact ⟨s1, h1, h2⟩

/-- C3 as stated fails.  Every write succeeds, the sender is in
`WaitForFileRequest` and receives `ReceiverRequestPayload`, but the cipher
fails on the first chunk: `Transfer` returns the error of the cipher, no
`SenderPayloadSent` is written and the state stays `WaitForFileRequest`.
Likewise, with a cipher that works and the payload size `1 << 62`, the buffer
cannot be allocated: nothing is streamed and nothing is written. -/
theorem transfer_request_and_ack_rows_counterexample :
    ((∀ t, brokenCipherEnv.writeErr t = none ∧ brokenCipherEnv.binaryErr t = none) ∧
      transferLoop brokenCipherEnv (helloSender TransferState.WaitForFileRequest)
          [Except.ok ⟨MessageType.ReceiverRequestPayload, ""⟩] =
        (⟨TransferState.WaitForFileRequest, 5, [⟨[], some ReadError.EOF⟩], []⟩,
          Exit.returned (some (Error.encrypt "cipher failure")))) ∧
    ((∀ t, scenarioEnv.writeErr t = none ∧ scenarioEnv.binaryErr t = none) ∧
      transferLoop scenarioEnv (hugeSender TransferState.WaitForFileRequest)
          [Except.ok ⟨MessageType.ReceiverRequestPayload, ""⟩] =
        (hugeSender TransferState.WaitForFileRequest, Exit.panicked)) :=
  ⟨⟨fun _ => ⟨rfl, rfl⟩, by decide⟩, ⟨fun _ => ⟨rfl, rfl⟩, by decide⟩⟩

/-- C4, amended: in `WaitForCloseAck`, on `ReceiverClosingAck`, `Transfer` closes
the transport, writes no frame and returns `nil`; the state is not assigned
again, it stays `WaitForCloseAck`. -/
theorem transfer_closing_ack (env : Env) (s : Sender) (p : String)
    (rest : List (Except String TransferMessage))
    (hst : s.state = TransferState.WaitForCloseAck) :
    transferLoop env s (Except.ok ⟨MessageType.ReceiverClosingAck, p⟩ :: rest) =
        ({ s with log := s.log ++ [Event.close, Event.sigterm] }, Exit.returned none) ∧
      (transferLoop env s (Except.ok ⟨MessageType.ReceiverClosingAck, p⟩ :: rest)).1.state =
        TransferState.WaitForCloseAck := by
  have h : transferLoop env s (Except.ok ⟨MessageType.ReceiverClosingAck, p⟩ :: rest) =
      ({ s with log := s.log ++ [Event.close, Event.sigterm] }, Exit.returned none) := by
    simp only [transferLoop, dispatch, hst, ne_eq, not_true_eq_false, if_false]
  exact ⟨h, by rw [h]; exact hst⟩

/-- C4, amended, at the sender of scenario S1 waiting for the closing ack. -/
theorem transfer_closing_ack_witness :
    (helloSender TransferState.WaitForCloseAck).state = TransferState.WaitForCloseAck ∧
    (transferLoop scenarioEnv (helloSender TransferState.WaitForCloseAck)
        [Except.ok ⟨MessageType.ReceiverClosingAck, ""⟩]).2 = Exit.returned none :=
  ⟨by decide,
    by rw [(transfer_closing_ack scenarioEnv (helloSender TransferState.WaitForCloseAck) "" []
      (by decide)).1]⟩

/-- C4 as stated fails: after the complete run of scenario S1, which returns
`nil`, the state of the sender is not `Terminated` (it is `WaitForCloseAck`). -/
theorem transfer_closing_ack_counterexample :
    (Transfer scenarioEnv (helloSender TransferState.Initial)
        [Except.ok ⟨MessageType.ReceiverRequestPayload, ""⟩,
         Except.ok ⟨MessageType.ReceiverPayloadAck, ""⟩,
         Except.ok ⟨MessageType.ReceiverClosingAck, ""⟩]).2 = Exit.returned none ∧
    (Transfer scenarioEnv (helloSender TransferState.Initial)
        [Except.ok ⟨MessageType.ReceiverRequestPayload, ""⟩,
         Except.ok ⟨MessageType.ReceiverPayloadAck, ""⟩,
         Except.ok ⟨MessageType.ReceiverClosingAck, ""⟩]).1.state ≠ TransferState.Terminated := by
  decide

/-- C5, amended: in every state, when the write of the `TransferError` message
succeeds, `ReceiverRequestPayload` outside `WaitForFileRequest` and
`ReceiverPayloadAck` outside `WaitForFileAck` make `Transfer` write one
`TransferError` with the names of the expected and the actual state, then
close the transport, then return `WrongStateError(expected, actual)`;
`ReceiverClosingAck` outside `WaitForCloseAck` makes it close the transport and
return `WrongStateError(WaitForCloseAck, actual)`. -/
theorem wrong_state_teardown (env : Env) (s : Sender) (p : String)
    (rest : List (Except String TransferMessage))
    (hw : env.writeErr s.log.length = none) :
    (s.state ≠ TransferState.WaitForFileRequest →
      transferLoop env s (Except.ok ⟨MessageType.ReceiverRequestPayload, p⟩ :: rest) =
        ({ s with log := s.log ++
            [Event.control ⟨MessageType.TransferError,
              unsynchronized TransferState.WaitForFileRequest s.state⟩,
             Event.close, Event.sigterm] },
          Exit.returned (some (Error.wrongState TransferState.WaitForFileRequest s.state)))) ∧
    (s.state ≠ TransferState.WaitForFileAck →
      transferLoop env s (Except.ok ⟨MessageType.ReceiverPayloadAck, p⟩ :: rest) =
        ({ s with log := s.log ++
            [Event.control ⟨MessageType.TransferError,
              unsynchronized TransferState.WaitForFileAck s.state⟩,
             Event.close, Event.sigterm] },
          Exit.returned (some (Error.wrongState TransferState.WaitForFileAck s.state)))) ∧
    (s.state ≠ TransferState.WaitForCloseAck →
      ∃ s1 new,
        transferLoop env s (Except.ok ⟨MessageType.ReceiverClosingAck, p⟩ :: rest) =
          (s1, Exit.returned (some (Error.wrongState TransferState.WaitForCloseAck s.state))) ∧
        s1.log = s.log ++ new ∧ Event.close ∈ new) := by
  refine ⟨?_, ?_, ?_⟩
  · intro hst
    simp [transferLoop, dispatch, hst, WriteEncryptedMessage, hw]
  · intro hst
    simp [transferLoop, dispatch, hst, WriteEncryptedMessage, hw]
  · intro hst
    refine ⟨{ s with log := s.log ++ [Event.close, Event.sigterm] },
      [Event.close, Event.sigterm], ?_, rfl, by simp⟩
    simp [transferLoop, dispatch, hst]

/-- C5, amended, at senders of scenario S1: a request for the payload and a
payload ack arriving in `WaitForCloseAck`, and a closing ack arriving in
`WaitForFileRequest`. -/
theorem wrong_state_teardown_witness :
    scenarioEnv.writeErr (helloSender TransferState.WaitForCloseAck).log.length = none ∧
    (transferLoop scenarioEnv (helloSender TransferState.WaitForCloseAck)
        [Except.ok ⟨MessageType.ReceiverRequestPayload, ""⟩]).2 =
      Exit.returned (some (Error.wrongState TransferState.WaitForFileRequest
        TransferState.WaitForCloseAck)) ∧
    (transferLoop scenarioEnv (helloSender TransferState.WaitForCloseAck)
        [Except.ok ⟨MessageType.ReceiverPayloadAck, ""⟩]).2 =
      Exit.returned (some (Error.wrongState TransferState.WaitForFileAck
        TransferState.WaitForCloseAck)) ∧
    (transferLoop scenarioEnv (helloSender TransferState.WaitForFileRequest)
        [Except.ok ⟨MessageType.ReceiverClosingAck, ""⟩]).2 =
      Exit.returned (some (Error.wrongState TransferState.WaitForCloseAck
        TransferState.WaitForFileRequest)) := by
  refine ⟨rfl, ?_, ?_, ?_⟩
  · rw [(wrong_state_teardown scenarioEnv (helloSender TransferState.WaitForCloseAck) "" []
      rfl).1 (by decide)]
    rfl
  · rw [(wrong_state_teardown scenarioEnv (helloSender TransferState.WaitForCloseAck) "" []
      rfl).2.1 (by decide)]
    rfl
  · obtain ⟨s1, new, h, -, -⟩ :=
      (wrong_state_teardown scenarioEnv (helloSender TransferState.WaitForFileRequest) "" []
        rfl).2.2 (by decide)
    rw [h]
    rfl

/-- C5 as stated fails.  `ReceiverHandshake` (a type that is never expected
during `Transfer`, and not `TransferError`) arriving in `WaitForFileRequest`:
no message is written, the transport is not closed, and `Transfer` does not
return, it waits for the next message.  `ReceiverClosingAck` arriving in
`WaitForFileRequest`: `Transfer` returns a `WrongStateError`, and no
`TransferError` message was written. -/
theorem wrong_state_teardown_counterexample :
    (controls (Transfer scenarioEnv (helloSender TransferState.Initial)
        [Except.ok ⟨MessageType.ReceiverHandshake, ""⟩]).1.log = [] ∧
      Event.close ∉ (Transfer scenarioEnv (helloSender TransferState.Initial)
        [Except.ok ⟨MessageType.ReceiverHandshake, ""⟩]).1.log ∧
      (Transfer scenarioEnv (helloSender TransferState.Initial)
        [Except.ok ⟨MessageType.ReceiverHandshake, ""⟩]).2 = Exit.awaitingMessage) ∧
    (controls (Transfer scenarioEnv (helloSender TransferState.Initial)
        [Except.ok ⟨MessageType.ReceiverClosingAck, ""⟩]).1.log = [] ∧
      (Transfer scenarioEnv (helloSender TransferState.Initial)
        [Except.ok ⟨MessageType.ReceiverClosingAck, ""⟩]).2 =
        Exit.returned (some (Error.wrongState TransferState.WaitForCloseAck
          TransferState.WaitForFileRequest))) := by
  decide

/-- C6, amended (scenario S3): when the first message is `ReceiverPayloadAck` and
the write of the `TransferError` message succeeds (it is the second effect of
the run, after the assignment of `WaitForFileRequest`), the sender writes one
`TransferError` naming the expected state `WaitForFileAck` and the actual state
`WaitForFileRequest`, closes the transport and returns
`WrongStateError(WaitForFileAck, WaitForFileRequest)`. -/
theorem payload_ack_first (env : Env) (s : Sender) (p : String)
    (rest : List (Except String TransferMessage))
    (hw : env.writeErr (s.log.length + 1) = none) :
    Transfer env s (Except.ok ⟨MessageType.ReceiverPayloadAck, p⟩ :: rest) =
      ({ s with
          state := TransferState.WaitForFileRequest
          log := s.log ++
            [Event.assign TransferState.WaitForFileRequest,
             Event.control ⟨MessageType.TransferError,
               "Tran unsynchronized, expected state: WaitForFileAck, actual: WaitForFileRequest"⟩,
             Event.close, Event.sigterm] },
        Exit.returned (some (Error.wrongState TransferState.WaitForFileAck
          TransferState.WaitForFileRequest))) := by
  have hu : unsynchronized TransferState.WaitForFileAck TransferState.WaitForFileRequest =
      "Tran unsynchronized, expected state: WaitForFileAck, actual: WaitForFileRequest" := by
    decide
  simp [Transfer, transferLoop, dispatch, WriteEncryptedMessage, hw, hu]

/-- C6, amended, in scenario S3 with the sender of `"hello"`. -/
theorem payload_ack_first_witness :
    scenarioEnv.writeErr ((helloSender TransferState.Initial).log.length + 1) = none ∧
    (Transfer scenarioEnv (helloSender TransferState.Initial)
        [Except.ok ⟨MessageType.ReceiverPayloadAck, ""⟩]).2 =
      Exit.returned (some (Error.wrongState TransferState.WaitForFileAck
        TransferState.WaitForFileRequest)) :=
  ⟨rfl, by rw [payload_ack_first scenarioEnv (helloSender TransferState.Initial) "" [] rfl]⟩

/-- C6 as stated fails: in scenario S3 the error returned is no
`WrongStateError` whose expected state is `WaitForFileRequest`. -/
theorem payload_ack_first_counterexample :
    ¬ ∃ actual, (Transfer scenarioEnv (helloSender TransferState.Initial)
        [Except.ok ⟨MessageType.ReceiverPayloadAck, ""⟩]).2 =
      Exit.returned (some (Error.wrongState TransferState.WaitForFileRequest actual)) := by
  rintro ⟨actual, h⟩
  have h2 : (Transfer scenarioEnv (helloSender TransferState.Initial)
        [Except.ok ⟨MessageType.ReceiverPayloadAck, ""⟩]).2 =
      Exit.returned (some (Error.wrongState TransferState.WaitForFileAck
        TransferState.WaitForFileRequest)) := by decide
  rw [h2] at h
  cases h

/-- C7: in every state, on `TransferError`, `Transfer` closes the transport and
returns a non-nil error; what it does before returning (update the UI, close,
signal the shutdown) is no write to the peer, and the state is unchanged. -/
theorem transfer_error_received (env : Env) (s : Sender) (p : String)
    (rest : List (Except String TransferMessage)) :
    transferLoop env s (Except.ok ⟨MessageType.TransferError, p⟩ :: rest) =
        ({ s with log := s.log ++ [Event.updateUI, Event.close, Event.sigterm] },
          Exit.returned (some Error.transferError)) ∧
      (∀ e ∈ [Event.updateUI, Event.close, Event.sigterm], e.isWrite = false) ∧
      (transferLoop env s (Except.ok ⟨MessageType.TransferError, p⟩ :: rest)).1.state =
        s.state := by
  have h : transferLoop env s (Except.ok ⟨MessageType.TransferError, p⟩ :: rest) =
      ({ s with log := s.log ++ [Event.updateUI, Event.close, Event.sigterm] },
        Exit.returned (some Error.transferError)) := by
    simp only [transferLoop, dispatch]
  refine ⟨h, by decide, by rw [h]⟩

/-! ## Claims on whole runs -/

/-- C8: state monotonicity.  Whatever is received and whatever fails, the states
assigned during one run of `Transfer`, the initial `WaitForFileRequest`
included, are strictly increasing in the order of the states; hence no state
is assigned twice. -/
theorem transfer_states_increase (env : Env) (s : Sender)
    (reads : List (Except String TransferMessage)) :
    ∃ later,
      (Transfer env s reads).1.log =
        s.log ++ Event.assign TransferState.WaitForFileRequest :: later ∧
      (TransferState.WaitForFileRequest :: assignments later).Pairwise
        (fun a b => a.rank < b.rank) ∧
      (TransferState.WaitForFileRequest :: assignments later).Nodup := by
  obtain ⟨later, hl, hp, hb, -⟩ := transferLoop_ascends env reads
    { s with state := TransferState.WaitForFileRequest,
             log := s.log ++ [Event.assign TransferState.WaitForFileRequest] }
  have hsorted : (TransferState.WaitForFileRequest :: assignments later).Pairwise
      (fun a b => a.rank < b.rank) :=
    List.pairwise_cons.mpr ⟨fun a ha => (hb a ha).1, hp⟩
  refine ⟨later, ?_, hsorted, ?_⟩
  · unfold Transfer
    rw [hl]
    simp
  · exact hsorted.imp (fun {a b} hab heq => by rw [heq] at hab; exact lt_irrefl _ hab)

/-- C9, what the code does: when the write of `SenderPayloadSent` fails, and
when the encryption of a chunk fails, `Transfer` returns the error and the
transport has not been closed. -/
theorem transfer_returns_unclosed :
    (Transfer brokenWriteEnv (helloSender TransferState.Initial)
        [Except.ok ⟨MessageType.ReceiverRequestPayload, ""⟩]).2 =
      Exit.returned (some (Error.write "broken pipe")) ∧
    Event.close ∉ (Transfer brokenWriteEnv (helloSender TransferState.Initial)
        [Except.ok ⟨MessageType.ReceiverRequestPayload, ""⟩]).1.log ∧
    (Transfer brokenCipherEnv (helloSender TransferState.Initial)
        [Except.ok ⟨MessageType.ReceiverRequestPayload, ""⟩]).2 =
      Exit.returned (some (Error.encrypt "cipher failure")) ∧
    Event.close ∉ (Transfer brokenCipherEnv (helloSender TransferState.Initial)
        [Except.ok ⟨MessageType.ReceiverRequestPayload, ""⟩]).1.log := by
  decide

/-! ## Claims on payload streaming -/

/-- C10, amended: for a payload stream whose reads (each within the buffer, as a
reader must) deliver some bytes and then report end-of-stream, a cipher that
never fails, and a payload size whose buffer of `ChunkSize(payloadSize)` bytes
can be allocated, `streamPayload` returns `nil`, the chunks it wrote as binary
frames, concatenated in order, are exactly the bytes delivered, and no chunk
is longer than `ChunkSize(payloadSize)`. -/
theorem streamPayload_delivers (env : Env) (s : Sender)
    (pre : List ReadResult) (last : ReadResult) (post : List ReadResult)
    (hpayload : s.payload = pre ++ last :: post)
    (hpre : ∀ r ∈ pre, r.err ≠ some ReadError.EOF)
    (hlast : last.err = some ReadError.EOF)
    (hfit : ∀ r ∈ pre ++ [last],
      (r.data.length : Int) ≤ ChunkSize env.MAX_CHUNK_BYTES env.MAX_SEND_CHUNKS s.payloadSize)
    (hbuf : ChunkSize env.MAX_CHUNK_BYTES env.MAX_SEND_CHUNKS s.payloadSize ≤ env.allocLimit)
    (henc : ∀ t plain, ∃ enc, env.Encrypt t plain = Except.ok enc) :
    ∃ frames,
      streamPayload env s =
        ({ s with payload := post, log := s.log ++ frames }, Exit.returned none) ∧
      (∀ e ∈ frames, e.isStreaming = true) ∧
      (chunks frames).flatten = delivered (pre ++ [last]) ∧
      ∀ c ∈ chunks frames,
        (c.length : Int) ≤ ChunkSize env.MAX_CHUNK_BYTES env.MAX_SEND_CHUNKS s.payloadSize := by
  have hcs : ¬ (ChunkSize env.MAX_CHUNK_BYTES env.MAX_SEND_CHUNKS s.payloadSize < 0 ∨
      ChunkSize env.MAX_CHUNK_BYTES env.MAX_SEND_CHUNKS s.payloadSize > env.allocLimit) := by
    have := hfit last (by simp)
    omega
  obtain ⟨frames, h1, h2⟩ := streamLoop_delivers env s.payloadSize
    (ChunkSize env.MAX_CHUNK_BYTES env.MAX_SEND_CHUNKS s.payloadSize) henc last post hlast pre
    hpre hfit 0 s.log
  obtain ⟨frames2, g1, g2, g3⟩ := streamPayload_log env s
  have hsp : streamPayload env s =
      ({ s with payload := post, log := s.log ++ frames }, Exit.returned none) := by
    simp only [streamPayload, hcs, if_false, hpayload, h1]
  have hfr : frames2 = frames := by
    rw [hsp] at g1
    exact (List.append_cancel_left g1).symm
  subst hfr
  refine ⟨frames2, hsp, g2, ?_, g3⟩
  rw [h2, delivered]

/-- C10, amended, in scenario S1: the chunks written for `"hello"` concatenate
to `"hello"`. -/
theorem streamPayload_delivers_witness :
    ChunkSize scenarioEnv.MAX_CHUNK_BYTES scenarioEnv.MAX_SEND_CHUNKS
      (helloSender TransferState.WaitForFileRequest).payloadSize ≤ scenarioEnv.allocLimit ∧
    ∃ frames,
      streamPayload scenarioEnv (helloSender TransferState.WaitForFileRequest) =
        ({ helloSender TransferState.WaitForFileRequest with
            payload := [], log := [] ++ frames }, Exit.returned none) ∧
      (chunks frames).flatten = hello :=
  ⟨by decide,
    let ⟨frames, h1, _, h3, _⟩ :=
      streamPayload_delivers scenarioEnv (helloSender TransferState.WaitForFileRequest)
        [⟨hello, none⟩] ⟨[], some ReadError.EOF⟩ [] rfl (by decide) rfl (by decide)
        (by decide) (fun _ plain => ⟨plain, rfl⟩)
    ⟨frames, h1, h3.trans (by decide)⟩⟩

/-- C10 as stated fails: the sender of `"hello"` with the payload size `1 << 62`
has a stream that delivers `"hello"` and then end-of-stream, and the cipher
never fails, yet `streamPayload` does not write the chunks of `"hello"`: the
chunk size is `1 << 52`, `make` panics, and no frame is written. -/
theorem streamPayload_delivers_counterexample :
    (∀ t plain, ∃ enc, scenarioEnv.Encrypt t plain = Except.ok enc) ∧
    ChunkSize scenarioEnv.MAX_CHUNK_BYTES scenarioEnv.MAX_SEND_CHUNKS
      (hugeSender TransferState.WaitForFileRequest).payloadSize = 4503599627370496 ∧
    streamPayload scenarioEnv (hugeSender TransferState.WaitForFileRequest) =
      (hugeSender TransferState.WaitForFileRequest, Exit.panicked) ∧
    (chunks (streamPayload scenarioEnv
      (hugeSender TransferState.WaitForFileRequest)).1.log).flatten ≠ hello :=
  ⟨fun _ plain => ⟨plain, rfl⟩, by decide, by decide, by decide⟩

/-! ## Claims on errors while streaming -/

/-- C11, what the code does.  A read of the payload that fails with an error
other than `io.EOF`: `streamPayload` goes on reading, writes the frames of the
later reads and returns `nil`, and `Transfer` writes `SenderPayloadSent` and
waits for the next message.  A write of a binary frame that fails:
`streamPayload` goes on, writes the next frame and returns `nil`, and
`Transfer` writes `SenderPayloadSent`. -/
theorem streamPayload_ignores_errors :
    ((streamPayload scenarioEnv (failedReadSender TransferState.WaitForFileRequest)).2 =
        Exit.returned none ∧
      chunks (streamPayload scenarioEnv
        (failedReadSender TransferState.WaitForFileRequest)).1.log = [[], hello, []] ∧
      controls (Transfer scenarioEnv (failedReadSender TransferState.Initial)
        [Except.ok ⟨MessageType.ReceiverRequestPayload, ""⟩]).1.log =
        [⟨MessageType.SenderPayloadSent, "Tran transfer completed"⟩] ∧
      (Transfer scenarioEnv (failedReadSender TransferState.Initial)
        [Except.ok ⟨MessageType.ReceiverRequestPayload, ""⟩]).2 = Exit.awaitingMessage) ∧
    ((streamPayload brokenBinaryEnv (helloSender TransferState.WaitForFileRequest)).2 =
        Exit.returned none ∧
      (streamPayload brokenBinaryEnv (helloSender TransferState.WaitForFileRequest)).1.log =
        [Event.binary hello hello (some "broken pipe"), Event.progress 5 5,
         Event.binary [] [] (some "broken pipe"), Event.progress 5 5] ∧
      controls (Transfer brokenBinaryEnv (helloSender TransferState.Initial)
        [Except.ok ⟨MessageType.ReceiverRequestPayload, ""⟩]).1.log =
        [⟨MessageType.SenderPayloadSent, "Tran transfer completed"⟩]) := by
  decide

/-! ## Claims on progress -/

/-- C14, amended: scenario S1.  For a payload of 5 bytes that the reader delivers
in one read, within the buffer (which the machine can allocate), and a cipher
that never fails, `streamPayload`
returns `nil` and the first binary frame carries the 5 bytes; it is the only
frame when the reader reports end-of-stream with the 5 bytes, and one empty
binary frame follows it when the reader reports end-of-stream on a read of its
own. -/
theorem scenario_S1_frames (env : Env) (s : Sender) (data : List UInt8)
    (eofWithData : Bool) (post : List ReadResult)
    (henc : ∀ t plain, ∃ enc, env.Encrypt t plain = Except.ok enc)
    (hdata : data.length = 5)
    (hsize : s.payloadSize = 5)
    (hfit : (5 : Int) ≤ ChunkSize env.MAX_CHUNK_BYTES env.MAX_SEND_CHUNKS 5)
    (hbuf : ChunkSize env.MAX_CHUNK_BYTES env.MAX_SEND_CHUNKS 5 ≤ env.allocLimit)
    (hpayload : s.payload =
      (if eofWithData then [⟨data, some ReadError.EOF⟩]
        else [⟨data, none⟩, ⟨[], some ReadError.EOF⟩]) ++ post) :
    ∃ frames,
      streamPayload env s =
        ({ s with payload := post, log := s.log ++ frames }, Exit.returned none) ∧
      chunks frames = (if eofWithData then [data] else [data, []]) := by
  replace hfit : (5 : Int) ≤
      ChunkSize env.MAX_CHUNK_BYTES env.MAX_SEND_CHUNKS s.payloadSize := by
    rw [hsize]
    exact hfit
  replace hbuf : ChunkSize env.MAX_CHUNK_BYTES env.MAX_SEND_CHUNKS s.payloadSize ≤
      env.allocLimit := by
    rw [hsize]
    exact hbuf
  have hcs : ¬ (ChunkSize env.MAX_CHUNK_BYTES env.MAX_SEND_CHUNKS s.payloadSize < 0 ∨
      ChunkSize env.MAX_CHUNK_BYTES env.MAX_SEND_CHUNKS s.payloadSize > env.allocLimit) := by
    omega
  cases eofWithData with
  | true =>
    obtain ⟨frames, h1, h2⟩ := streamLoop_delivers env s.payloadSize
      (ChunkSize env.MAX_CHUNK_BYTES env.MAX_SEND_CHUNKS s.payloadSize) henc
      ⟨data, some ReadError.EOF⟩ post rfl [] (by simp)
      (by
        intro r hr
        simp at hr
        subst hr
        simp only [hdata]
        exact_mod_cast hfit) 0 s.log
    refine ⟨frames, ?_, by simpa using h2⟩
    simp only [if_true, List.singleton_append] at hpayload
    simp only [List.nil_append] at h1
    simp only [streamPayload, hcs, if_false, hpayload, h1]
  | false =>
    obtain ⟨frames, h1, h2⟩ := streamLoop_delivers env s.payloadSize
      (ChunkSize env.MAX_CHUNK_BYTES env.MAX_SEND_CHUNKS s.payloadSize) henc
      ⟨[], some ReadError.EOF⟩ post rfl [⟨data, none⟩] (by simp)
      (by
        intro r hr
        simp at hr
        rcases hr with rfl | rfl
        · simp only [hdata]
          exact_mod_cast hfit
        · simp only [List.length_nil]
          omega) 0 s.log
    refine ⟨frames, ?_, by simpa using h2⟩
    simp only [Bool.false_eq_true, if_false, List.cons_append, List.nil_append] at hpayload
    simp only [List.cons_append, List.nil_append] at h1
    simp only [streamPayload, hcs, if_false, hpayload, h1]

/-- C14, amended, for `"hello"` read from a file: two frames, `"hello"` and the
empty one. -/
theorem scenario_S1_frames_witness :
    hello.length = 5 ∧
    (helloSender TransferState.WaitForFileRequest).payloadSize = 5 ∧
    (5 : Int) ≤ ChunkSize scenarioEnv.MAX_CHUNK_BYTES scenarioEnv.MAX_SEND_CHUNKS 5 ∧
    ChunkSize scenarioEnv.MAX_CHUNK_BYTES scenarioEnv.MAX_SEND_CHUNKS 5 ≤
      scenarioEnv.allocLimit ∧
    ∃ frames,
      streamPayload scenarioEnv (helloSender TransferState.WaitForFileRequest) =
        ({ helloSender TransferState.WaitForFileRequest with
            payload := [], log := [] ++ frames }, Exit.returned none) ∧
      chunks frames = [hello, []] :=
  ⟨rfl, rfl, by decide, by decide,
    scenario_S1_frames scenarioEnv (helloSender TransferState.WaitForFileRequest) hello false []
      (fun _ plain => ⟨plain, rfl⟩) rfl rfl (by decide) (by decide) rfl⟩

/-- C14 as stated fails: for `"hello"` whose reader delivers the five bytes and
then, on the next read, end-of-stream (what a file does), `streamPayload`
writes two binary frames, not one: `"hello"` and an empty frame. -/
theorem scenario_S1_frames_counterexample :
    (streamPayload scenarioEnv (helloSender TransferState.WaitForFileRequest)).2 =
      Exit.returned none ∧
    chunks (streamPayload scenarioEnv (helloSender TransferState.WaitForFileRequest)).1.log =
      [hello, []] ∧
    (chunks (streamPayload scenarioEnv
      (helloSender TransferState.WaitForFileRequest)).1.log).length ≠ 1 := by
  decide

/-- C16: for positive constants and a payload size of any sign, the chunk size
is at least `MAX_CHUNK_BYTES`, in each of the three branches: the first
returns `payloadSize / K`, which is at least `M` there; the second returns
`M`; the third returns `payloadSize / M`, which is above `M` there. -/
theorem ChunkSize_never_below_minimum (M K payloadSize : Int) (hM : 0 < M) (hK : 0 < K) :
    M ≤ ChunkSize M K payloadSize ∧
    (payloadSize.tdiv M > K →
      ChunkSize M K payloadSize = payloadSize.tdiv K ∧ M ≤ payloadSize.tdiv K) ∧
    (¬ payloadSize.tdiv M > K → payloadSize.tdiv M ≤ M → ChunkSize M K payloadSize = M) ∧
    (¬ payloadSize.tdiv M > K → ¬ payloadSize.tdiv M ≤ M →
      ChunkSize M K payloadSize = payloadSize.tdiv M ∧ M ≤ payloadSize.tdiv M) := by
  have hge := ChunkSize_ge_max_chunk_bytes M K payloadSize hM hK
  refine ⟨hge, ?_, ?_, ?_⟩
  · intro h1
    have heq : ChunkSize M K payloadSize = payloadSize.tdiv K := by
      simp only [ChunkSize, h1, if_true]
    exact ⟨heq, heq ▸ hge⟩
  · intro h1 h2
    simp only [ChunkSize, h1, h2, if_true, if_false]
  · intro h1 h2
    have heq : ChunkSize M K payloadSize = payloadSize.tdiv M := by
      simp only [ChunkSize, h1, h2, if_false]
    exact ⟨heq, heq ▸ hge⟩

/-- C16 at the constants of the examples and a negative payload size. -/
theorem ChunkSize_never_below_minimum_witness :
    (0 : Int) < 16384 ∧ (0 : Int) < 1024 ∧ (16384 : Int) ≤ ChunkSize 16384 1024 (-5) :=
  ⟨by decide, by decide,
    (ChunkSize_never_below_minimum 16384 1024 (-5) (by decide) (by decide)).1⟩

/-- C19: when `MAX_SEND_CHUNKS ≤ MAX_CHUNK_BYTES`, no payload size reaches the
last branch of `ChunkSize` (the one that returns `payloadSize / M`), so that
`ChunkSize` is the two-case function; and, the constants being positive, on
payload sizes `≥ 0` it is monotonically non-decreasing. -/
theorem ChunkSize_two_cases (M K : Int) (hKM : K ≤ M) :
    (∀ p : Int, ¬ (¬ p.tdiv M > K ∧ ¬ p.tdiv M ≤ M)) ∧
    (∀ p : Int, ChunkSize M K p = twoCaseChunkSize M K p) ∧
    (0 < K → ∀ p q : Int, 0 ≤ p → p ≤ q → ChunkSize M K p ≤ ChunkSize M K q) := by
  have hunreach : ∀ p : Int, ¬ (¬ p.tdiv M > K ∧ ¬ p.tdiv M ≤ M) := by
    rintro p ⟨h1, h2⟩
    omega
  have htwo : ∀ p : Int, ChunkSize M K p = twoCaseChunkSize M K p := by
    intro p
    unfold ChunkSize twoCaseChunkSize
    by_cases h1 : p.tdiv M > K
    · simp only [h1, if_true]
    · have h2 : p.tdiv M ≤ M := by omega
      simp only [h1, h2, if_true, if_false]
  refine ⟨hunreach, htwo, ?_⟩
  intro hK p q hp hpq
  have hM : 0 < M := lt_of_lt_of_le hK hKM
  have hq : 0 ≤ q := le_trans hp hpq
  have hdivM : p.tdiv M ≤ q.tdiv M := by
    rw [Int.tdiv_eq_ediv hp hM.le, Int.tdiv_eq_ediv hq hM.le]
    exact Int.ediv_le_ediv hM hpq
  have hdivK : p.tdiv K ≤ q.tdiv K := by
    rw [Int.tdiv_eq_ediv hp hK.le, Int.tdiv_eq_ediv hq hK.le]
    exact Int.ediv_le_ediv hK hpq
  by_cases h1 : p.tdiv M > K
  · have h2 : q.tdiv M > K := lt_of_lt_of_le h1 hdivM
    rw [htwo p, htwo q]
    simp only [twoCaseChunkSize, h1, h2, if_true]
    exact hdivK
  · have hpM : ChunkSize M K p = M := by
      rw [htwo p]
      simp only [twoCaseChunkSize, h1, if_false]
    rw [hpM]
    exact ChunkSize_ge_max_chunk_bytes M K q hM hK

/-- C19 at the constants of the examples: 64 MiB falls in the first case, and a
payload of 5 bytes gets a chunk size no larger than one of 64 MiB. -/
theorem ChunkSize_two_cases_witness :
    (1024 : Int) ≤ 16384 ∧ (0 : Int) < 1024 ∧
    ChunkSize 16384 1024 67108864 = twoCaseChunkSize 16384 1024 67108864 ∧
    ChunkSize 16384 1024 5 ≤ ChunkSize 16384 1024 67108864 :=
  ⟨by decide, by decide,
    (ChunkSize_two_cases 16384 1024 (by decide)).2.1 67108864,
    (ChunkSize_two_cases 16384 1024 (by decide)).2.2 (by decide) 5 67108864
      (by decide) (by decide)⟩

/-! ## Claims on the messages of a run -/

/-- A message whose type has no case in the `switch` leaves the sender as it
is, and the loop goes on. -/
lemma dispatch_not_dispatched (env : Env) (s : Sender) (msg : TransferMessage)
    (h : msg.Typ.isDispatched = false) : dispatch env s msg = (s, none) := by
  obtain ⟨typ, p⟩ := msg
  cases typ <;> first | rfl | simp [MessageType.isDispatched] at h

/-- The five ways through the `switch`: the message has no case; the payload is
streamed and `SenderPayloadSent` written; `SenderClosing` is written; the
closing ack arrives in `WaitForCloseAck`; or the function ends otherwise than
by returning `nil`. -/
lemma dispatch_cases (env : Env) (s : Sender) (msg : TransferMessage) :
    (msg.Typ.isDispatched = false ∧ dispatch env s msg = (s, none)) ∨
    (msg.Typ = MessageType.ReceiverRequestPayload ∧
      s.state = TransferState.WaitForFileRequest ∧
      (streamPayload env s).2 = Exit.returned none ∧
      dispatch env s msg =
        ({ (streamPayload env s).1 with
            state := TransferState.WaitForFileAck
            log := (streamPayload env s).1.log ++
              [Event.control ⟨MessageType.SenderPayloadSent, "Tran transfer completed"⟩,
               Event.assign TransferState.WaitForFileAck, Event.updateUI] }, none)) ∨
    (msg.Typ = MessageType.ReceiverPayloadAck ∧
      s.state = TransferState.WaitForFileAck ∧
      dispatch env s msg =
        ({ s with
            state := TransferState.WaitForCloseAck
            log := s.log ++
              [Event.assign TransferState.WaitForCloseMessage, Event.updateUI,
               Event.control ⟨MessageType.SenderClosing, "Closing down Tran as requested"⟩,
               Event.assign TransferState.WaitForCloseAck, Event.updateUI] }, none)) ∨
    (msg.Typ = MessageType.ReceiverClosingAck ∧
      s.state = TransferState.WaitForCloseAck ∧
      dispatch env s msg =
        ({ s with log := s.log ++ [Event.close, Event.sigterm] }, some (Exit.returned none))) ∨
    ((dispatch env s msg).2 ≠ none ∧ (dispatch env s msg).2 ≠ some (Exit.returned none)) := by
  obtain ⟨typ, p⟩ := msg
  cases typ
  case ReceiverHandshake => exact Or.inl ⟨rfl, rfl⟩
  case SenderHandshake => exact Or.inl ⟨rfl, rfl⟩
  case SenderPayloadSent => exact Or.inl ⟨rfl, rfl⟩
  case SenderClosing => exact Or.inl ⟨rfl, rfl⟩
  case TransferError =>
    exact Or.inr (Or.inr (Or.inr (Or.inr ⟨by simp [dispatch], by simp [dispatch]⟩)))
  case ReceiverClosingAck =>
    by_cases hst : s.state = TransferState.WaitForCloseAck
    · refine Or.inr (Or.inr (Or.inr (Or.inl ⟨rfl, hst, ?_⟩)))
      simp [dispatch, hst]
    · refine Or.inr (Or.inr (Or.inr (Or.inr ?_)))
      constructor <;> simp [dispatch, ne_eq, hst, not_false_eq_true, if_true]
  case ReceiverPayloadAck =>
    by_cases hst : s.state = TransferState.WaitForFileAck
    · cases hw : env.writeErr (s.log.length + 2) with
      | some err =>
        refine Or.inr (Or.inr (Or.inr (Or.inr ?_)))
        constructor <;> simp [dispatch, hst, ne_eq, not_true_eq_false, if_false,
          WriteEncryptedMessage, List.length_append, List.length_cons, List.length_nil, hw]
      | none =>
        refine Or.inr (Or.inr (Or.inl ⟨rfl, hst, ?_⟩))
        simp [dispatch, hst, WriteEncryptedMessage, hw]
    · cases hw : env.writeErr s.log.length with
      | some err =>
        refine Or.inr (Or.inr (Or.inr (Or.inr ?_)))
        constructor <;> simp [dispatch, hst, ne_eq, not_false_eq_true, if_true,
          WriteEncryptedMessage, hw]
      | none =>
        refine Or.inr (Or.inr (Or.inr (Or.inr ?_)))
        constructor <;> simp [dispatch, hst, ne_eq, not_false_eq_true, if_true,
          WriteEncryptedMessage, hw]
  case ReceiverRequestPayload =>
    by_cases hst : s.state = TransferState.WaitForFileRequest
    · rcases hsp : streamPayload env s with ⟨s1, exit⟩
      cases exit with
      | awaitingMessage =>
        refine Or.inr (Or.inr (Or.inr (Or.inr ?_)))
        constructor <;> simp [dispatch, hst, ne_eq, not_true_eq_false, if_false, hsp]
      | awaitingPayload =>
        refine Or.inr (Or.inr (Or.inr (Or.inr ?_)))
        constructor <;> simp [dispatch, hst, ne_eq, not_true_eq_false, if_false, hsp]
      | panicked =>
        refine Or.inr (Or.inr (Or.inr (Or.inr ?_)))
        constructor <;> simp [dispatch, hst, ne_eq, not_true_eq_false, if_false, hsp]
      | returned err =>
        cases err with
        | some e =>
          refine Or.inr (Or.inr (Or.inr (Or.inr ?_)))
          constructor <;> simp [dispatch, hst, ne_eq, not_true_eq_false, if_false, hsp]
        | none =>
          cases hw : env.writeErr s1.log.length with
          | some err =>
            refine Or.inr (Or.inr (Or.inr (Or.inr ?_)))
            constructor <;> simp [dispatch, hst, ne_eq, not_true_eq_false, if_false, hsp,
              WriteEncryptedMessage, hw]
          | none =>
            refine Or.inr (Or.inl ⟨rfl, hst, rfl, ?_⟩)
            simp only [dispatch, hst, ne_eq, not_true_eq_false, if_false, hsp,
              WriteEncryptedMessage, hw, List.append_assoc, List.singleton_append]
    · cases hw : env.writeErr s.log.length with
      | some err =>
        refine Or.inr (Or.inr (Or.inr (Or.inr ?_)))
        constructor <;> simp [dispatch, hst, ne_eq, not_false_eq_true, if_true,
          WriteEncryptedMessage, hw]
      | none =>
        refine Or.inr (Or.inr (Or.inr (Or.inr ?_)))
        constructor <;> simp [dispatch, hst, ne_eq, not_false_eq_true, if_true,
          WriteEncryptedMessage, hw]

/-- A run of the loop that returns `nil` has read, among the messages that have
a case in the `switch`, exactly those that its starting state awaits, and
ends in the sender `completed`. -/
lemma transferLoop_success (env : Env) (reads : List (Except String TransferMessage)) :
    ∀ s : Sender, (transferLoop env s reads).2 = Exit.returned none →
      ∃ consumed unread,
        reads = consumed ++ unread ∧
        (∀ r ∈ consumed, ∃ msg, r = Except.ok msg) ∧
        dispatchedTypes consumed = awaited s.state ∧
        (transferLoop env s reads).1 = completed env s ∧
        (s.state = TransferState.WaitForFileRequest →
          (streamPayload env s).2 = Exit.returned none) := by
  induction reads with
  | nil =>
    intro s h
    simp [transferLoop] at h
  | cons r rest ih =>
    intro s h
    cases r with
    | error err => simp [transferLoop] at h
    | ok msg =>
      rcases dispatch_cases env s msg with ⟨hty, hd⟩ | ⟨hty, hst, hsp, hd⟩ | ⟨hty, hst, hd⟩ |
        ⟨hty, hst, hd⟩ | ⟨hne, hnone⟩
      · -- no case in the switch
        have hloop : transferLoop env s (Except.ok msg :: rest) = transferLoop env s rest := by
          simp only [transferLoop, hd]
        rw [hloop] at h ⊢
        obtain ⟨consumed, unread, h1, h2, h3, h4, h5⟩ := ih s h
        refine ⟨Except.ok msg :: consumed, unread, by rw [h1]; rfl, ?_, ?_, h4, h5⟩
        · intro x hx
          rcases List.mem_cons.mp hx with rfl | hx
          · exact ⟨msg, rfl⟩
          · exact h2 x hx
        · simp only [dispatchedTypes, hty, Bool.false_eq_true, if_false, h3]
      · -- the request for the payload, in WaitForFileRequest
        have hloop : transferLoop env s (Except.ok msg :: rest) =
            transferLoop env
              { (streamPayload env s).1 with
                  state := TransferState.WaitForFileAck
                  log := (streamPayload env s).1.log ++
                    [Event.control ⟨MessageType.SenderPayloadSent, "Tran transfer completed"⟩,
                     Event.assign TransferState.WaitForFileAck, Event.updateUI] } rest := by
          simp only [transferLoop, hd]
        rw [hloop] at h ⊢
        obtain ⟨consumed, unread, h1, h2, h3, h4, -⟩ := ih _ h
        refine ⟨Except.ok msg :: consumed, unread, by rw [h1]; rfl, ?_, ?_, ?_, fun _ => hsp⟩
        · intro x hx
          rcases List.mem_cons.mp hx with rfl | hx
          · exact ⟨msg, rfl⟩
          · exact h2 x hx
        · simp only [dispatchedTypes, hty, MessageType.isDispatched, if_true, h3, hst, awaited]
        · rw [h4]
          simp [completed, hst, closingEvents]
      · -- the payload ack, in WaitForFileAck
        have hloop : transferLoop env s (Except.ok msg :: rest) =
            transferLoop env
              { s with
                  state := TransferState.WaitForCloseAck
                  log := s.log ++
                    [Event.assign TransferState.WaitForCloseMessage, Event.updateUI,
                     Event.control
                       ⟨MessageType.SenderClosing, "Closing down Tran as requested"⟩,
                     Event.assign TransferState.WaitForCloseAck, Event.updateUI] } rest := by
          simp only [transferLoop, hd]
        rw [hloop] at h ⊢
        obtain ⟨consumed, unread, h1, h2, h3, h4, -⟩ := ih _ h
        refine ⟨Except.ok msg :: consumed, unread, by rw [h1]; rfl, ?_, ?_, ?_, ?_⟩
        · intro x hx
          rcases List.mem_cons.mp hx with rfl | hx
          · exact ⟨msg, rfl⟩
          · exact h2 x hx
        · simp only [dispatchedTypes, hty, MessageType.isDispatched, if_true, h3, hst, awaited]
        · rw [h4]
          simp [completed, hst, closingEvents]
        · intro hwfr
          rw [hst] at hwfr
          exact absurd hwfr (by decide)
      · -- the closing ack, in WaitForCloseAck
        have hloop : transferLoop env s (Except.ok msg :: rest) =
            ({ s with log := s.log ++ [Event.close, Event.sigterm] }, Exit.returned none) := by
          simp only [transferLoop, hd]
        rw [hloop]
        refine ⟨[Except.ok msg], rest, rfl, ?_, ?_, ?_, ?_⟩
        · intro x hx
          rw [List.mem_singleton] at hx
          exact ⟨msg, hx⟩
        · simp only [dispatchedTypes, hty, MessageType.isDispatched, if_true, hst, awaited]
        · simp [completed, hst]
        · intro hwfr
          rw [hst] at hwfr
          exact absurd hwfr (by decide)
      · -- every other way through the switch ends the run otherwise
        exfalso
        rcases hd : dispatch env s msg with ⟨s1, exit⟩
        rw [hd] at hne hnone
        cases exit with
        | none => exact hne rfl
        | some x =>
          simp only [transferLoop, hd] at h
          exact hnone (by rw [h])

lemma controls_append (a b : List Event) : controls (a ++ b) = controls a ++ controls b := by
  induction a with
  | nil => rfl
  | cons e a ih => cases e <;> simp [controls, ih]

lemma controls_of_streaming (frames : List Event)
    (h : ∀ e ∈ frames, e.isStreaming = true) : controls frames = [] := by
  induction frames with
  | nil => rfl
  | cons e frames ih =>
    have he := h e (List.mem_cons_self _ _)
    have ht := ih (fun x hx => h x (List.mem_cons_of_mem _ hx))
    cases e <;> simp_all [controls, Event.isStreaming]

/-- C17: `Transfer` returns `nil` only if the messages it has read, all of them
read successfully, hold among the types with a case in the `switch` exactly
`ReceiverRequestPayload`, `ReceiverPayloadAck`, `ReceiverClosingAck`, in this
order.  In such a run `streamPayload` ran exactly once, right after the first
assignment, and returned `nil`; the log of the run is that assignment, the
payload frames of that one call, one `SenderPayloadSent`, then one
`SenderClosing`, and the closing of the transport. -/
theorem transfer_success_only_if (env : Env) (s : Sender)
    (reads : List (Except String TransferMessage))
    (hok : (Transfer env s reads).2 = Exit.returned none) :
    ∃ consumed unread frames,
      reads = consumed ++ unread ∧
      (∀ r ∈ consumed, ∃ msg, r = Except.ok msg) ∧
      dispatchedTypes consumed =
        [MessageType.ReceiverRequestPayload, MessageType.ReceiverPayloadAck,
         MessageType.ReceiverClosingAck] ∧
      (streamPayload env
        { s with state := TransferState.WaitForFileRequest,
                 log := s.log ++ [Event.assign TransferState.WaitForFileRequest] }).2 =
        Exit.returned none ∧
      (streamPayload env
        { s with state := TransferState.WaitForFileRequest,
                 log := s.log ++ [Event.assign TransferState.WaitForFileRequest] }).1.log =
        s.log ++ Event.assign TransferState.WaitForFileRequest :: frames ∧
      (∀ e ∈ frames, e.isStreaming = true) ∧
      (Transfer env s reads).1.log =
        s.log ++ Event.assign TransferState.WaitForFileRequest :: frames ++
          [Event.control ⟨MessageType.SenderPayloadSent, "Tran transfer completed"⟩,
           Event.assign TransferState.WaitForFileAck, Event.updateUI,
           Event.assign TransferState.WaitForCloseMessage, Event.updateUI,
           Event.control ⟨MessageType.SenderClosing, "Closing down Tran as requested"⟩,
           Event.assign TransferState.WaitForCloseAck, Event.updateUI,
           Event.close, Event.sigterm] ∧
      controls (Event.assign TransferState.WaitForFileRequest :: frames ++
          [Event.control ⟨MessageType.SenderPayloadSent, "Tran transfer completed"⟩,
           Event.assign TransferState.WaitForFileAck, Event.updateUI,
           Event.assign TransferState.WaitForCloseMessage, Event.updateUI,
           Event.control ⟨MessageType.SenderClosing, "Closing down Tran as requested"⟩,
           Event.assign TransferState.WaitForCloseAck, Event.updateUI,
           Event.close, Event.sigterm]) =
        [⟨MessageType.SenderPayloadSent, "Tran transfer completed"⟩,
         ⟨MessageType.SenderClosing, "Closing down Tran as requested"⟩] := by
  unfold Transfer at hok ⊢
  obtain ⟨consumed, unread, h1, h2, h3, h4, h5⟩ := transferLoop_success env reads _ hok
  obtain ⟨frames, g1, g2, -⟩ := streamPayload_log env
    { s with state := TransferState.WaitForFileRequest,
             log := s.log ++ [Event.assign TransferState.WaitForFileRequest] }
  refine ⟨consumed, unread, frames, h1, h2, h3, h5 rfl, ?_, g2, ?_, ?_⟩
  · rw [g1]
    simp
  · rw [h4]
    simp only [completed, closingEvents]
    rw [g1]
    simp
  · have hc := controls_of_streaming frames g2
    rw [List.cons_append, controls, controls_append, hc]
    · rfl
    · intro msg h
      cases h

/-- C17 in scenario S1, with a handshake message read in between and a message
left unread after the closing ack. -/
theorem transfer_success_only_if_witness :
    (Transfer scenarioEnv (helloSender TransferState.Initial)
      [Except.ok ⟨MessageType.ReceiverRequestPayload, ""⟩,
       Except.ok ⟨MessageType.ReceiverHandshake, ""⟩,
       Except.ok ⟨MessageType.ReceiverPayloadAck, ""⟩,
       Except.ok ⟨MessageType.ReceiverClosingAck, ""⟩,
       Except.ok ⟨MessageType.TransferError, ""⟩]).2 = Exit.returned none ∧
    ∃ consumed unread,
      [Except.ok ⟨MessageType.ReceiverRequestPayload, ""⟩,
       Except.ok ⟨MessageType.ReceiverHandshake, ""⟩,
       Except.ok ⟨MessageType.ReceiverPayloadAck, ""⟩,
       Except.ok ⟨MessageType.ReceiverClosingAck, ""⟩,
       Except.ok ⟨MessageType.TransferError, ""⟩] = consumed ++ unread ∧
      dispatchedTypes consumed =
        [MessageType.ReceiverRequestPayload, MessageType.ReceiverPayloadAck,
         MessageType.ReceiverClosingAck] :=
  ⟨by decide,
    let ⟨consumed, unread, _, h1, _, h3, _⟩ :=
      transfer_success_only_if scenarioEnv (helloSender TransferState.Initial)
        [Except.ok ⟨MessageType.ReceiverRequestPayload, ""⟩,
         Except.ok ⟨MessageType.ReceiverHandshake, ""⟩,
         Except.ok ⟨MessageType.ReceiverPayloadAck, ""⟩,
         Except.ok ⟨MessageType.ReceiverClosingAck, ""⟩,
         Except.ok ⟨MessageType.TransferError, ""⟩] (by decide)
    ⟨consumed, unread, h1, h3⟩⟩

/-- C18: in every state, a message read successfully whose type is none of
`ReceiverRequestPayload`, `ReceiverPayloadAck`, `ReceiverClosingAck`,
`TransferError` is ignored: the `switch` leaves the sender as it is (same
state, nothing written, nothing closed, nothing logged at all) and `Transfer`
goes on to read the next message. -/
theorem transfer_ignores_other_types (env : Env) (s : Sender) (msg : TransferMessage)
    (rest : List (Except String TransferMessage))
    (h1 : msg.Typ ≠ MessageType.ReceiverRequestPayload)
    (h2 : msg.Typ ≠ MessageType.ReceiverPayloadAck)
    (h3 : msg.Typ ≠ MessageType.ReceiverClosingAck)
    (h4 : msg.Typ ≠ MessageType.TransferError) :
    dispatch env s msg = (s, none) ∧
    transferLoop env s (Except.ok msg :: rest) = transferLoop env s rest := by
  have hnot : msg.Typ.isDispatched = false := by
    cases hty : msg.Typ <;> first | rfl | simp_all
  have hd := dispatch_not_dispatched env s msg hnot
  exact ⟨hd, by simp only [transferLoop, hd]⟩

/-- C18 for `SenderClosing` arriving in `WaitForFileAck`, before the payload
ack. -/
theorem transfer_ignores_other_types_witness :
    transferLoop scenarioEnv (helloSender TransferState.WaitForFileAck)
        [Except.ok ⟨MessageType.SenderClosing, ""⟩,
         Except.ok ⟨MessageType.ReceiverPayloadAck, ""⟩] =
      transferLoop scenarioEnv (helloSender TransferState.WaitForFileAck)
        [Except.ok ⟨MessageType.ReceiverPayloadAck, ""⟩] :=
  (transfer_ignores_other_types scenarioEnv (helloSender TransferState.WaitForFileAck)
    ⟨MessageType.SenderClosing, ""⟩ [Except.ok ⟨MessageType.ReceiverPayloadAck, ""⟩]
    (by decide) (by decide) (by decide) (by decide)).2

end Tran
